import Mathlib

/-!
# Console and Cairo-region adapters of cjs (modules/print.cpp, modules/cairo-region.cpp)

A shallow embedding of the two adapter modules.  The script engine, GLib and the
cairo library are external collaborators: their primitives are modelled by small
functions whose behaviour is the documented behaviour of the primitive, and the
parts of them that the modules cannot determine (script-defined conversions,
allocation failure, number formatting, the region algebra) are carried by the
heap objects or by the `Engine` and `Cairo` records.
-/

namespace Gjs

/-! ## Engine values -/

/-- Engine strings (`JSString*`), as their text. -/
abbrev JSString := String

/-- Address of a script object in the engine heap. -/
abbrev ObjRef := Nat

/-- Address of a native `cairo_region_t`. -/
abbrev Handle := Nat

/-- An IEEE-754 double, decomposed: NaN, an infinity, or the finite value
`(-1)^neg * mant * 2^exp`. -/
inductive JSDouble
  | nan
  | inf (neg : Bool)
  | finite (neg : Bool) (mant : Nat) (exp : Int)
  deriving DecidableEq, Repr

/-- A `JS::Value`. -/
inductive JSValue
  | undefined
  | null
  | boolean (b : Bool)
  | number (d : JSDouble)
  | string (s : JSString)
  | symbol (description : String)
  | bigint (n : Int)
  | object (o : ObjRef)
  deriving DecidableEq, Repr

/-- The `JSClass` of an object, as far as the adapters tell classes apart. -/
inductive JSClass
  | plain
  | function
  | cairo_region
  deriving DecidableEq, Repr

/-- `cairo_status_t`; `CAIRO_STATUS_SUCCESS` is 0. -/
abbrev cairo_status_t := Nat

/-- The success status of cairo. -/
def CAIRO_STATUS_SUCCESS : cairo_status_t := 0

/-- A pending script exception. -/
inductive JSError
  | message (text : String)
  | typeError
  | scriptException
  | outOfMemory
  | badArguments (function : String)
  | cairoStatus (name : String) (status : cairo_status_t)
  deriving DecidableEq, Repr

/-- A property of an object as `JS_GetPropertyById` sees it: a value, or an
accessor whose getter throws. -/
inductive PropertySlot
  | data (v : JSValue)
  | throwingGetter
  deriving DecidableEq, Repr

/-- An object in the engine heap.  `toStr` and `toNum` are the outcomes of the
script-defined conversions of the object (`none`: the conversion throws). -/
structure JSObject where
  clasp : JSClass
  priv : Option Handle
  props : List (String × PropertySlot)
  toStr : Option JSString
  toNum : Option JSDouble
  deriving DecidableEq, Repr

/-- What the modules cannot determine about the engine. -/
structure Engine where
  /-- `JS_EncodeStringToUTF8` fails on this string (allocation failure). -/
  encodeFails : JSString → Bool
  /-- Rendering of a finite double that is not an integer below 2^53: the shortest
  digits that read back as the same double, in the layout the language prescribes. -/
  formatNonInteger : JSDouble → JSString
  /-- The numeric value of a string (`StringToNumber`). -/
  stringToNumber : JSString → JSDouble
  /-- Boxing of a primitive `this` by `computeThis` (`none`: it fails). -/
  boxThis : JSValue → Option ObjRef
  /-- `gjs_argument_display_name` of gi/arg.cpp, indexed by the argument-type tag. -/
  gjs_argument_display_name : String → Nat → String

/-- GLib log levels. -/
inductive GLogLevelFlags
  | G_LOG_LEVEL_ERROR
  | G_LOG_LEVEL_CRITICAL
  | G_LOG_LEVEL_WARNING
  | G_LOG_LEVEL_MESSAGE
  | G_LOG_LEVEL_INFO
  | G_LOG_LEVEL_DEBUG
  deriving DecidableEq, Repr

/-- One record received by the process-wide message sink. -/
inductive LogRecord
  | text (level : GLogLevelFlags) (msg : String)
  | exception (level : GLogLevelFlags) (exc : JSValue) (message : Option JSString)
  deriving DecidableEq, Repr

/-- A rectangle of cairo: four signed 32-bit integers. -/
structure cairo_rectangle_int_t where
  x : Int
  y : Int
  width : Int
  height : Int
  deriving DecidableEq, Repr

/-- The four region combinators the method macros are instantiated with. -/
inductive Method
  | union
  | subtract
  | intersect
  | xor
  deriving DecidableEq, Repr

/-- A call of a native combine primitive: `cairo_region_<method>(dst, other)` or
`cairo_region_<method>_rectangle(dst, &rect)`; `none` is a null pointer. -/
inductive NativeCall
  | region (m : Method) (dst : Option Handle) (other : Option Handle)
  | rectangle (m : Method) (dst : Option Handle) (rect : cairo_rectangle_int_t)
  deriving DecidableEq, Repr

/-- Contents of a native region. -/
structure RegionBody where
  status : cairo_status_t
  rects : List cairo_rectangle_int_t
  deriving DecidableEq, Repr

/-- The state the adapters act on: the engine heap and pending exception, the
native regions with their reference counts, the combine calls made so far, and
the console streams and message sink. -/
structure World where
  objects : ObjRef → JSObject
  nextObj : ObjRef
  pending : Option JSError
  ref_count : Handle → Nat
  body : Handle → RegionBody
  nextHandle : Handle
  calls : List NativeCall
  stdout : String
  stderr : String
  sink : List LogRecord

/-- The region algebra of cairo, which the adapter only calls. -/
structure Cairo where
  region_op : Method → (Handle → RegionBody) → Option Handle → Option Handle →
    (Handle → RegionBody)
  rectangle_op : Method → (Handle → RegionBody) → Option Handle →
    cairo_rectangle_int_t → (Handle → RegionBody)
  region_status : (Handle → RegionBody) → Option Handle → cairo_status_t

/-- The `JS::CallArgs` of a native call: `this`, the arguments, and the content of
the return-value slot `vp[0]` on entry (unspecified; the engine puts the callee
there). -/
structure CallArgs where
  thisv : JSValue
  args : List JSValue
  slot : JSValue

/-- The outcome of a `JSNative`: its boolean result, the return-value slot, and
the state. -/
structure NativeResult where
  ok : Bool
  rval : JSValue
  world : World

/-! ## Engine and GLib primitives -/

/-- `JS::Value::isObject`. -/
def JSValue.isObject : JSValue → Bool
  | .object _ => true
  | _ => false

/-- `JS::Value::isNull`. -/
def JSValue.isNull : JSValue → Bool
  | .null => true
  | _ => false

/-- The integer a finite double denotes, when it denotes one. -/
def JSDouble.integerMagnitude (mant : Nat) (exp : Int) : Option Nat :=
  if 0 ≤ exp then some (mant * 2 ^ exp.toNat)
  else if mant % 2 ^ (-exp).toNat = 0 then some (mant / 2 ^ (-exp).toNat)
  else none

/-- `Number::toString` in radix 10.  An integer below 2^53 prints as its decimal
digits: doubles are at most 1 apart there, so no shorter digit string reads back
as the same double (negative zero prints as "0").  Every other finite value,
larger integers included, prints as the shortest digits that read back as the
same double, which the engine determines. -/
def Number_toString (E : Engine) : JSDouble → JSString
  | .nan => "NaN"
  | .inf false => "Infinity"
  | .inf true => "-Infinity"
  | .finite neg mant exp =>
    match JSDouble.integerMagnitude mant exp with
    | some n =>
      if n < 2 ^ 53 then (if neg && n != 0 then "-" else "") ++ toString n
      else E.formatNonInteger (.finite neg mant exp)
    | none => E.formatNonInteger (.finite neg mant exp)

/-- The outcome of `JS::ToString` on a value: the string, or the exception it
throws. -/
def toStringOutcome (E : Engine) (w : World) : JSValue → Except JSError JSString
  | .undefined => .ok "undefined"
  | .null => .ok "null"
  | .boolean b => .ok (if b then "true" else "false")
  | .number d => .ok (Number_toString E d)
  | .string s => .ok s
  | .symbol _ => .error .typeError
  | .bigint n => .ok (toString n)
  | .object o =>
    match (w.objects o).toStr with
    | some s => .ok s
    | none => .error .scriptException

/-- `JS::ToString(cx, v)`: the string, or null with the exception left pending. -/
def JS_ToString (E : Engine) (w : World) (v : JSValue) : Option JSString × World :=
  match toStringOutcome E w v with
  | .ok s => (some s, w)
  | .error e => (none, { w with pending := some e })

/-- The constructor of `JS::AutoSaveExceptionState`: the pending exception is
saved and cleared. -/
def AutoSaveExceptionState (w : World) : Option JSError × World :=
  (w.pending, { w with pending := none })

/-- `JS::AutoSaveExceptionState::restore`: the saved exception state replaces the
current one. -/
def AutoSaveExceptionState_restore (w : World) (saved : Option JSError) : World :=
  { w with pending := saved }

/-- The text a `char*` buffer holds when read as a C string: up to the first NUL. -/
def c_str (s : String) : String :=
  String.mk (s.data.takeWhile (fun c => c != Char.ofNat 0))

/-- The C string `JS_EncodeStringToUTF8` yields for an engine string, when the
encoding succeeds. -/
def encodeOutcome (E : Engine) (jstr : JSString) : Option String :=
  if E.encodeFails jstr then none else some (c_str jstr)

/-- `JS_EncodeStringToUTF8(cx, jstr)`: null, with out-of-memory reported, on
failure. -/
def JS_EncodeStringToUTF8 (E : Engine) (w : World) (jstr : JSString) :
    Option String × World :=
  match encodeOutcome E jstr with
  | some s => (some s, w)
  | none => (none, { w with pending := some .outOfMemory })

/-- Modelled from the spec: gjs_throw (cjs/jsapi-util-error.cpp) raises a
script-level exception carrying the given message. -/
def gjs_throw (w : World) (msg : String) : World :=
  { w with pending := some (.message msg) }

/-- GLib `g_message`: one record at message level on the process-wide sink. -/
def g_message (w : World) (msg : String) : World :=
  { w with sink := w.sink ++ [.text .G_LOG_LEVEL_MESSAGE msg] }

/-- Modelled from the spec: gjs_log_exception_full (cjs/jsapi-util.cpp) forwards
the structured error plus the optional message to the sink at the given
severity. -/
def gjs_log_exception_full (w : World) (exc : JSValue) (message : Option JSString)
    (level : GLogLevelFlags) : World :=
  { w with sink := w.sink ++ [.exception level exc message] }

/-- GLib `g_string_free(str, free_segment)`: the character data, or NULL when the
segment is freed too. -/
def g_string_free (str : String) (free_segment : Bool) : Option String :=
  if free_segment then none else some str

/-- What the format "%s" prints for a `char*`. -/
def percent_s : Option String → String
  | some s => s
  | none => "(null)"

/-- GLib `g_print("%s\n", buffer)`. -/
def g_print (w : World) (buffer : Option String) : World :=
  { w with stdout := w.stdout ++ percent_s buffer ++ "\n" }

/-- GLib `g_printerr("%s\n", buffer)`. -/
def g_printerr (w : World) (buffer : Option String) : World :=
  { w with stderr := w.stderr ++ percent_s buffer ++ "\n" }

/-! ## modules/print.cpp -/

/-- The native `gjs_log` (print.cpp:34). -/
def gjs_log (E : Engine) (w : World) (argv : CallArgs) : NativeResult :=
  if h : argv.args.length ≠ 1 then
    { ok := false, rval := argv.slot,
      world := gjs_throw w "Must pass a single argument to log()" }
  else
    let exc_state := AutoSaveExceptionState w
    let r := JS_ToString E exc_state.2 (argv.args.get ⟨0, by omega⟩)
    let w2 := AutoSaveExceptionState_restore r.2 exc_state.1
    match r.1 with
    | none =>
      { ok := true, rval := argv.slot,
        world := g_message w2 "JS LOG: <cannot convert value to string>" }
    | some jstr =>
      match JS_EncodeStringToUTF8 E w2 jstr with
      | (none, w3) => { ok := false, rval := argv.slot, world := w3 }
      | (some s, w3) =>
        { ok := true, rval := .undefined, world := g_message w3 ("JS LOG: " ++ s) }

/-- The native `gjs_log_error` (print.cpp:64). -/
def gjs_log_error (E : Engine) (w : World) (argv : CallArgs) : NativeResult :=
  if h : argv.args.length ≠ 1 ∧ argv.args.length ≠ 2 then
    { ok := false, rval := argv.slot,
      world := gjs_throw w
        "Must pass an exception and optionally a message to logError()" }
  else if (argv.args.get ⟨0, by omega⟩).isObject = false then
    { ok := false, rval := argv.slot,
      world := gjs_throw w
        "Must pass an exception and optionally a message to logError()" }
  else
    let r : Option JSString × World :=
      if h2 : argv.args.length = 2 then
        let exc_state := AutoSaveExceptionState w
        let t := JS_ToString E exc_state.2 (argv.args.get ⟨1, by omega⟩)
        (t.1, AutoSaveExceptionState_restore t.2 exc_state.1)
      else (none, w)
    { ok := true, rval := .undefined,
      world := gjs_log_exception_full r.2 (argv.args.get ⟨0, by omega⟩) r.1
        .G_LOG_LEVEL_WARNING }

/-- Outcome of `gjs_print_parse_args`: its boolean result, the buffer (a nullable
`char*`), and the state. -/
structure ParseResult where
  ok : Bool
  buffer : Option String
  world : World

/-- The loop of `gjs_print_parse_args` (print.cpp:94) from index `n` on, where the
list holds `argv[n], argv[n+1], ...`, `len` is `argv.length()` and `str` the
GString built so far. -/
def gjs_print_parse_args_loop (E : Engine) (len : Nat) :
    List JSValue → Nat → String → World → ParseResult
  | [], _, str, w => { ok := true, buffer := g_string_free str false, world := w }
  | v :: rest, n, str, w =>
    let exc_state := AutoSaveExceptionState w
    let r := JS_ToString E exc_state.2 v
    let w2 := AutoSaveExceptionState_restore r.2 exc_state.1
    match r.1 with
    | some jstr =>
      match JS_EncodeStringToUTF8 E w2 jstr with
      | (none, w3) => { ok := false, buffer := none, world := w3 }
      | (some s, w3) =>
        let str1 := str ++ s
        let str2 := if n < len - 1 then str1 ++ " " else str1
        gjs_print_parse_args_loop E len rest (n + 1) str2 w3
    | none =>
      let buffer := g_string_free str true
      let buffer := if buffer.isNone then some "<invalid string>" else buffer
      { ok := true, buffer := buffer, world := w2 }

/-- The helper `gjs_print_parse_args` (print.cpp:91). -/
def gjs_print_parse_args (E : Engine) (w : World) (argv : CallArgs) : ParseResult :=
  gjs_print_parse_args_loop E argv.args.length argv.args 0 "" w

/-- The native `gjs_print` (print.cpp:124). -/
def gjs_print (E : Engine) (w : World) (argv : CallArgs) : NativeResult :=
  let p := gjs_print_parse_args E w argv
  if p.ok = false then { ok := false, rval := argv.slot, world := p.world }
  else { ok := true, rval := .undefined, world := g_print p.world p.buffer }

/-- The native `gjs_printerr` (print.cpp:138). -/
def gjs_printerr (E : Engine) (w : World) (argv : CallArgs) : NativeResult :=
  let p := gjs_print_parse_args E w argv
  if p.ok = false then { ok := false, rval := argv.slot, world := p.world }
  else { ok := true, rval := .undefined, world := g_printerr p.world p.buffer }

/-- The C string an argument contributes to the console: `JS::ToString` followed
by `JS_EncodeStringToUTF8`; `none` when one of the two fails. -/
def argumentText (E : Engine) (w : World) (v : JSValue) : Option String :=
  match toStringOutcome E w v with
  | .ok jstr => encodeOutcome E jstr
  | .error _ => none

/-! ## Engine and cairo primitives used by modules/cairo-region.cpp -/

/-- The ownership-transfer modes of GObject introspection. -/
inductive GITransfer
  | GI_TRANSFER_NOTHING
  | GI_TRANSFER_CONTAINER
  | GI_TRANSFER_EVERYTHING
  deriving DecidableEq, Repr

/-- The pointer member of a `GIArgument`; `none` is the null pointer. -/
structure GIArgument where
  v_pointer : Option Handle
  deriving DecidableEq, Repr

/-- `JS::Value::toObject`: defined on object values only (the engine asserts
`isObject()`); `none` stands for the undefined behaviour on any other value. -/
def JSValue.toObject : JSValue → Option ObjRef
  | .object o => some o
  | _ => none

/-- `JS_GetInstancePrivate(cx, obj, clasp, nullptr)`: the private pointer of an
instance of the class, null (without reporting anything) for any other object. -/
def JS_GetInstancePrivate (w : World) (obj : ObjRef) (clasp : JSClass) : Option Handle :=
  if (w.objects obj).clasp = clasp then (w.objects obj).priv else none

/-- `JS_GetPrivate(obj)`. -/
def JS_GetPrivate (w : World) (obj : ObjRef) : Option Handle :=
  (w.objects obj).priv

/-- `JS_SetPrivate(obj, data)`. -/
def JS_SetPrivate (w : World) (obj : ObjRef) (data : Option Handle) : World :=
  { w with objects := Function.update w.objects obj { w.objects obj with priv := data } }

/-- `JS::CallArgs::computeThis`: an object `this` is taken as it is, any other
value is boxed by the engine. -/
def computeThis (E : Engine) (argv : CallArgs) : Option ObjRef :=
  match argv.thisv with
  | .object o => some o
  | v => E.boxThis v

/-- `JS_GetPropertyById(cx, obj, id, &val)`: a missing property reads as
undefined; a throwing getter makes the call fail with the exception pending. -/
def JS_GetPropertyById (w : World) (obj : ObjRef) (id : String) : Option JSValue × World :=
  match (w.objects obj).props.lookup id with
  | none => (some .undefined, w)
  | some (.data v) => (some v, w)
  | some .throwingGetter => (none, { w with pending := some .scriptException })

/-- ECMAScript ToInt32 of a number: truncate towards zero, reduce modulo 2^32 and
read the result as a signed 32-bit integer; NaN and the infinities give 0. -/
def JSDouble.toInt32 : JSDouble → Int
  | .nan => 0
  | .inf _ => 0
  | .finite neg mant exp =>
    let mag : Nat :=
      if 0 ≤ exp then mant * 2 ^ exp.toNat else mant / 2 ^ (-exp).toNat
    let t : Int := if neg then -(mag : Int) else (mag : Int)
    let m : Int := t % 4294967296
    if 2147483648 ≤ m then m - 4294967296 else m

/-- The outcome of `JS::ToInt32` on a value: undefined is NaN, null is 0, a
boolean is 0 or 1, a string is its numeric value, a symbol or BigInt throws a
TypeError, an object is converted by its script-defined conversion. -/
def toInt32Outcome (E : Engine) (w : World) : JSValue → Except JSError Int
  | .undefined => .ok (JSDouble.toInt32 .nan)
  | .null => .ok 0
  | .boolean b => .ok (if b then 1 else 0)
  | .number d => .ok d.toInt32
  | .string s => .ok (E.stringToNumber s).toInt32
  | .symbol _ => .error .typeError
  | .bigint _ => .error .typeError
  | .object o =>
    match (w.objects o).toNum with
    | some d => .ok d.toInt32
    | none => .error .scriptException

/-- `JS::ToInt32(cx, v, &out)`. -/
def JS_ToInt32 (E : Engine) (w : World) (v : JSValue) : Option Int × World :=
  match toInt32Outcome E w v with
  | .ok i => (some i, w)
  | .error e => (none, { w with pending := some e })

/-- The `#method` string of the method macros. -/
def Method.name : Method → String
  | .union => "union"
  | .subtract => "subtract"
  | .intersect => "intersect"
  | .xor => "xor"

/-- Modelled from the spec: gjs_parse_call_args (cjs/jsapi-util-args.h) with the
format "o": exactly one argument is required and it must be an object (null is
not allowed); anything else is an argument error, reported at once. -/
def gjs_parse_call_args_o (w : World) (function_name : String) (argv : CallArgs) :
    Option ObjRef × World :=
  match argv.args with
  | [.object o] => (some o, w)
  | _ => (none, { w with pending := some (.badArguments function_name) })

/-- Modelled from the spec: gjs_parse_call_args (cjs/jsapi-util-args.h) with the
empty format: the call takes no arguments. -/
def gjs_parse_call_args_none (w : World) (function_name : String) (argv : CallArgs) :
    Bool × World :=
  match argv.args with
  | [] => (true, w)
  | _ => (false, { w with pending := some (.badArguments function_name) })

/-- Modelled from the spec: gjs_cairo_check_status (modules/cairo.cpp) surfaces a
non-success status as a thrown error naming the primitive and the status, and
otherwise silently succeeds. -/
def gjs_cairo_check_status (w : World) (status : cairo_status_t) (name : String) :
    Bool × World :=
  if status ≠ CAIRO_STATUS_SUCCESS then
    (false, { w with pending := some (.cairoStatus name status) })
  else (true, w)

/-- The native `cairo_region_<method>(dst, other)`: recorded, and the regions
become what the library makes of them. -/
def cairo_region_combine (C : Cairo) (method : Method) (w : World)
    (dst other : Option Handle) : World :=
  { w with body := C.region_op method w.body dst other,
           calls := w.calls ++ [.region method dst other] }

/-- The native `cairo_region_<method>_rectangle(dst, &rect)`. -/
def cairo_region_combine_rectangle (C : Cairo) (method : Method) (w : World)
    (dst : Option Handle) (rect : cairo_rectangle_int_t) : World :=
  { w with body := C.rectangle_op method w.body dst rect,
           calls := w.calls ++ [.rectangle method dst rect] }

/-- The native `cairo_region_status(region)`. -/
def cairo_region_status (C : Cairo) (w : World) (region : Option Handle) : cairo_status_t :=
  C.region_status w.body region

/-- The native `cairo_region_create()`: a fresh empty region holding one
reference. -/
def cairo_region_create (w : World) : Handle × World :=
  (w.nextHandle,
   { w with ref_count := Function.update w.ref_count w.nextHandle 1,
            body := Function.update w.body w.nextHandle
              { status := CAIRO_STATUS_SUCCESS, rects := [] },
            nextHandle := w.nextHandle + 1 })

/-- The native `cairo_region_reference(region)`: one more reference; null stays
null. -/
def cairo_region_reference (w : World) (region : Option Handle) : Option Handle × World :=
  match region with
  | some h => (some h, { w with ref_count := Function.update w.ref_count h (w.ref_count h + 1) })
  | none => (none, w)

/-- The native `cairo_region_destroy(region)`: one reference less (the region is
freed when none is left); a no-op on null. -/
def cairo_region_destroy (w : World) (region : Option Handle) : World :=
  match region with
  | some h => { w with ref_count := Function.update w.ref_count h (w.ref_count h - 1) }
  | none => w

/-- The Region object the engine allocates: its private slot is null. -/
def freshRegionObject : JSObject :=
  { clasp := .cairo_region, priv := none, props := [], toStr := some "[object Region]",
    toNum := some .nan }

/-- Allocation of a script object of the Region class with a null private slot
(`JS_NewObjectWithGivenProto`, `JS_NewObjectForConstructor`); null when the
engine cannot allocate. -/
def JS_NewRegionObject (allocFails : Bool) (w : World) : Option ObjRef × World :=
  if allocFails then (none, { w with pending := some .outOfMemory })
  else
    (some w.nextObj,
     { w with objects := Function.update w.objects w.nextObj freshRegionObject,
              nextObj := w.nextObj + 1 })

/-- Modelled from the spec: gjs_arg_unset of gi/arg-inl.h passes a null handle. -/
def gjs_arg_unset (_arg : GIArgument) : GIArgument :=
  { v_pointer := none }

/-- Modelled from the spec: gjs_arg_set of gi/arg-inl.h passes the handle. -/
def gjs_arg_set (_arg : GIArgument) (region : Option Handle) : GIArgument :=
  { v_pointer := region }

/-- Modelled from the spec: gjs_arg_get of gi/arg-inl.h reads the handle. -/
def gjs_arg_get (arg : GIArgument) : Option Handle :=
  arg.v_pointer

/-! ## modules/cairo-region.cpp -/

/-- The helper `get_region` (cairo-region.cpp:57). -/
def get_region (w : World) (obj : ObjRef) : Option Handle :=
  JS_GetInstancePrivate w obj .cairo_region

/-- The helper `fill_rectangle` (cairo-region.cpp:126): the rectangle read from
the descriptor, or failure at the first property read or coercion that fails. -/
def fill_rectangle (E : Engine) (w : World) (obj : ObjRef) :
    Option cairo_rectangle_int_t × World :=
  match JS_GetPropertyById w obj "x" with
  | (none, w1) => (none, w1)
  | (some val, w1) =>
  match JS_ToInt32 E w1 val with
  | (none, w2) => (none, w2)
  | (some x, w2) =>
  match JS_GetPropertyById w2 obj "y" with
  | (none, w3) => (none, w3)
  | (some val, w3) =>
  match JS_ToInt32 E w3 val with
  | (none, w4) => (none, w4)
  | (some y, w4) =>
  match JS_GetPropertyById w4 obj "width" with
  | (none, w5) => (none, w5)
  | (some val, w5) =>
  match JS_ToInt32 E w5 val with
  | (none, w6) => (none, w6)
  | (some width, w6) =>
  match JS_GetPropertyById w6 obj "height" with
  | (none, w7) => (none, w7)
  | (some val, w7) =>
  match JS_ToInt32 E w7 val with
  | (none, w8) => (none, w8)
  | (some height, w8) =>
    (some { x := x, y := y, width := width, height := height }, w8)

/-- Modelled from the spec: GJS_GET_THIS of cjs/jsapi-util.h binds the object the
method is called on, through the engine's `computeThis`; the call fails when there
is none. -/
def GJS_GET_THIS (E : Engine) (argv : CallArgs) : Option ObjRef :=
  computeThis E argv

/-- The macro `PRELUDE` (cairo-region.cpp:71): the `this` object and its native
region, null when `this` is not a Region. -/
def PRELUDE (E : Engine) (w : World) (argv : CallArgs) : Option (ObjRef × Option Handle) :=
  match GJS_GET_THIS E argv with
  | none => none
  | some obj => some (obj, JS_GetInstancePrivate w obj .cairo_region)

/-- Modelled from the spec: GJS_NATIVE_CONSTRUCTOR_PRELUDE of cjs/jsapi-class.h
creates the new object of the class for a call by `new`; the call fails when the
object cannot be allocated. -/
def GJS_NATIVE_CONSTRUCTOR_PRELUDE (allocFails : Bool) (w : World) : Option ObjRef × World :=
  JS_NewRegionObject allocFails w

/-- The macro `RETURN_STATUS` (cairo-region.cpp:76). -/
def RETURN_STATUS (C : Cairo) (w : World) (this_region : Option Handle) (rval : JSValue) :
    NativeResult :=
  let r := gjs_cairo_check_status w (cairo_region_status C w this_region) "region"
  { ok := r.1, rval := rval, world := r.2 }

/-- The macro `REGION_DEFINE_REGION_FUNC(method)` (cairo-region.cpp:79): the
natives `union_func`, `subtract_func`, `intersect_func` and `xor_func`. -/
def REGION_DEFINE_REGION_FUNC (method : Method) (E : Engine) (C : Cairo) (w : World)
    (argv : CallArgs) : NativeResult :=
  match PRELUDE E w argv with
  | none => { ok := false, rval := argv.slot, world := { w with pending := some .outOfMemory } }
  | some (_, this_region) =>
    match gjs_parse_call_args_o w method.name argv with
    | (none, w1) => { ok := false, rval := argv.slot, world := w1 }
    | (some other_obj, w1) =>
      let other_region := get_region w1 other_obj
      let w2 := cairo_region_combine C method w1 this_region other_region
      RETURN_STATUS C w2 this_region .undefined

/-- The macro `REGION_DEFINE_RECT_FUNC(method)` (cairo-region.cpp:96): the natives
`union_rectangle_func`, `subtract_rectangle_func`, `intersect_rectangle_func` and
`xor_rectangle_func`. -/
def REGION_DEFINE_RECT_FUNC (method : Method) (E : Engine) (C : Cairo) (w : World)
    (argv : CallArgs) : NativeResult :=
  match PRELUDE E w argv with
  | none => { ok := false, rval := argv.slot, world := { w with pending := some .outOfMemory } }
  | some (_, this_region) =>
    match gjs_parse_call_args_o w method.name argv with
    | (none, w1) => { ok := false, rval := argv.slot, world := w1 }
    | (some rect_obj, w1) =>
      match fill_rectangle E w1 rect_obj with
      | (none, w2) => { ok := false, rval := argv.slot, world := w2 }
      | (some rect, w2) =>
        let w3 := cairo_region_combine_rectangle C method w2 this_region rect
        RETURN_STATUS C w3 this_region .undefined

/-- The helper `_gjs_cairo_region_construct_internal` (cairo-region.cpp:249);
`none` is the abort of `g_assert(!JS_GetPrivate(obj))`. -/
def _gjs_cairo_region_construct_internal (w : World) (obj : ObjRef)
    (region : Option Handle) : Option World :=
  if (JS_GetPrivate w obj).isSome then none
  else
    let r := cairo_region_reference w region
    some (JS_SetPrivate r.2 obj r.1)

/-- The native constructor of Region (cairo-region.cpp:255), for a call by `new`;
at the end the constructor macros return the new object.  `none` is the abort of
the assertion in the internal constructor. -/
def gjs_cairo_region_constructor (allocFails : Bool) (w : World) (argv : CallArgs) :
    Option NativeResult :=
  match GJS_NATIVE_CONSTRUCTOR_PRELUDE allocFails w with
  | (none, w1) => some { ok := false, rval := argv.slot, world := w1 }
  | (some object, w1) =>
    match gjs_parse_call_args_none w1 "Region" argv with
    | (false, w2) => some { ok := false, rval := argv.slot, world := w2 }
    | (true, w2) =>
      let c := cairo_region_create w2
      match _gjs_cairo_region_construct_internal c.2 object (some c.1) with
      | none => none
      | some w3 =>
        let w4 := cairo_region_destroy w3 (some c.1)
        some { ok := true, rval := .object object, world := w4 }

/-- The finalizer `gjs_cairo_region_finalize` (cairo-region.cpp:275): the private
pointer moves into an auto-pointer, the slot is cleared, and the auto-pointer
destroys a non-null region when it goes out of scope. -/
def gjs_cairo_region_finalize (w : World) (obj : ObjRef) : World :=
  let region := JS_GetPrivate w obj
  let w1 := JS_SetPrivate w obj none
  cairo_region_destroy w1 region

/-- The helper `gjs_cairo_region_from_region` (cairo-region.cpp:284): the new
wrapper (null when the object cannot be allocated); `none` is the abort of the
assertion in the internal constructor. -/
def gjs_cairo_region_from_region (allocFails : Bool) (w : World) (region : Option Handle) :
    Option (Option ObjRef × World) :=
  match JS_NewRegionObject allocFails w with
  | (none, w1) => some (none, w1)
  | (some object, w1) =>
    match _gjs_cairo_region_construct_internal w1 object region with
    | none => none
    | some w2 => some (some object, w2)

/-- The hook `region_to_g_argument` (cairo-region.cpp:298): its boolean result,
the argument slot and the state; `none` is the undefined behaviour of
`value.toObject()` on a value that is not an object. -/
def region_to_g_argument (E : Engine) (w : World) (value : JSValue) (arg_name : String)
    (argument_type : Nat) (transfer : GITransfer) (may_be_null : Bool) (arg : GIArgument) :
    Option (Bool × GIArgument × World) :=
  if value.isNull then
    if !may_be_null then
      let display_name := E.gjs_argument_display_name arg_name argument_type
      some (false, arg, gjs_throw w (display_name ++ " may not be null"))
    else
      some (true, gjs_arg_unset arg, w)
  else
    match value.toObject with
    | none => none
    | some obj =>
      match get_region w obj with
      | none => some (false, arg, w)
      | some region =>
        let w1 :=
          if transfer = .GI_TRANSFER_EVERYTHING then cairo_region_destroy w (some region)
          else w
        some (true, gjs_arg_set arg (some region), w1)

/-- The hook `region_from_g_argument` (cairo-region.cpp:328): the value written
to `value_p` on success. -/
def region_from_g_argument (allocFails : Bool) (w : World) (arg : GIArgument) :
    Option (Bool × Option JSValue × World) :=
  match gjs_cairo_region_from_region allocFails w (gjs_arg_get arg) with
  | none => none
  | some (none, w1) => some (false, none, w1)
  | some (some obj, w1) => some (true, some (.object obj), w1)

/-- The hook `region_release_argument` (cairo-region.cpp:342). -/
def region_release_argument (w : World) (transfer : GITransfer) (arg : GIArgument) :
    Bool × World :=
  if transfer ≠ .GI_TRANSFER_NOTHING then (true, cairo_region_destroy w (gjs_arg_get arg))
  else (true, w)

/-- The 32-bit integer a descriptor contributes for a field: the property is read
with `JS_GetPropertyById` and coerced with `JS::ToInt32`; `none` when the read or
the coercion throws. -/
def fieldInt32 (E : Engine) (w : World) (obj : ObjRef) (id : String) : Option Int :=
  match (JS_GetPropertyById w obj id).1 with
  | none => none
  | some val => (JS_ToInt32 E w val).1

/-! ## Lifetimes of wrappers -/

/-- The steps that touch reference counts: `new Region()`, wrapping a native
handle, and the collection of a wrapper.  The flag says whether the engine fails
to allocate the new object. -/
inductive Step
  | construct (allocFails : Bool)
  | wrap (allocFails : Bool) (h : Handle)
  | finalize (o : ObjRef)
  deriving DecidableEq, Repr

/-- One step; `none` is an abort on the assertion of the internal constructor. -/
def step (w : World) : Step → Option World
  | .construct allocFails =>
    (gjs_cairo_region_constructor allocFails w
      { thisv := .undefined, args := [], slot := .undefined }).map (fun r => r.world)
  | .wrap allocFails h =>
    (gjs_cairo_region_from_region allocFails w (some h)).map (fun r => r.2)
  | .finalize o => some (gjs_cairo_region_finalize w o)

/-- A sequence of steps. -/
def run : World → List Step → Option World
  | w, [] => some w
  | w, s :: rest =>
    match step w s with
    | none => none
    | some w1 => run w1 rest

/-- A step the system can take in a state: a handle that is wrapped exists, and
the engine finalizes Region wrappers of its heap. -/
def Step.enabled (w : World) : Step → Bool
  | .construct _ => true
  | .wrap _ h => decide (h < w.nextHandle)
  | .finalize o => decide (o < w.nextObj) && decide ((w.objects o).clasp = .cairo_region)

/-- Every step of the sequence is enabled in the state it is taken in. -/
def admissible : World → List Step → Bool
  | _, [] => true
  | w, s :: rest =>
    s.enabled w &&
      match step w s with
      | some w1 => admissible w1 rest
      | none => false

/-- The number of live wrappers on a handle: Region objects of the heap whose
private slot holds it. -/
def liveWrappers (w : World) (h : Handle) : Nat :=
  (List.range w.nextObj).countP
    (fun o => decide ((w.objects o).clasp = .cairo_region ∧ (w.objects o).priv = some h))

/-- The reference-count invariant relative to the external references `ext`:
every count is the external references plus the live wrappers, and handles not
yet created have no references. -/
def CountInvariant (ext : Handle → Nat) (w : World) : Prop :=
  (∀ h, w.ref_count h = ext h + liveWrappers w h) ∧
  (∀ h, w.nextHandle ≤ h → w.ref_count h = 0)

/-! ## Example states -/

/-- An engine for the examples: no allocation fails.  The examples convert no
string to a number and print no number other than an integer below 2^53, so the
two renderings left to the engine are stand-ins. -/
def exampleEngine : Engine where
  encodeFails := fun _ => false
  formatNonInteger := fun _ => "NaN"
  stringToNumber := fun s =>
    match s.toNat? with
    | some n => .finite false n 0
    | none => .nan
  boxThis := fun _ => none
  gjs_argument_display_name := fun name _ => "Argument " ++ name

/-- The example engine, except that every UTF-8 encoding fails for lack of
memory. -/
def exhaustedEngine : Engine :=
  { exampleEngine with encodeFails := fun _ => true }

/-- The script string "a\u0000b": the letter a, the NUL character, the letter b. -/
def nulString : JSString :=
  String.mk ['a', Char.ofNat 0, 'b']

/-- A plain object without properties, `{}`. -/
def emptyObject : JSObject :=
  { clasp := .plain, priv := none, props := [], toStr := some "[object Object]",
    toNum := some .nan }

/-- The example heap: 0 is a function (the callee), 1 and 2 are Region wrappers
of the native regions 0 and 1, 3 is the plain object `{}`, 4 is the descriptor
`{x: 1, y: 2, width: 3, height: 4}`, 5 is an object whose conversions throw. -/
def exampleObjects : ObjRef → JSObject
  | 0 => { emptyObject with clasp := .function, toStr := some "function log() {}" }
  | 1 => { emptyObject with clasp := .cairo_region, priv := some 0,
                            toStr := some "[object Region]" }
  | 2 => { emptyObject with clasp := .cairo_region, priv := some 1,
                            toStr := some "[object Region]" }
  | 4 => { emptyObject with
           props := [("x", .data (.number (.finite false 1 0))),
                     ("y", .data (.number (.finite false 2 0))),
                     ("width", .data (.number (.finite false 3 0))),
                     ("height", .data (.number (.finite false 4 0)))] }
  | 5 => { emptyObject with toStr := none, toNum := none }
  | _ => emptyObject

/-- The example state: the example heap, two empty native regions with one
reference each (held by the wrappers 1 and 2), nothing pending, nothing written. -/
def exampleWorld : World where
  objects := exampleObjects
  nextObj := 6
  pending := none
  ref_count := fun h => if h < 2 then 1 else 0
  body := fun _ => { status := CAIRO_STATUS_SUCCESS, rects := [] }
  nextHandle := 2
  calls := []
  stdout := ""
  stderr := ""
  sink := []

/-- The call `region.method({})`: `this` is the wrapper 1 and the one argument is
the plain object 3. -/
def plainObjectCall : CallArgs :=
  { thisv := .object 1, args := [.object 3], slot := .object 0 }

/-- A stand-in for the cairo library in the examples: a combine appends the
operand's rectangles to the destination and leaves its status alone; the status
of a null region reads as 7 (CAIRO_STATUS_NULL_POINTER). -/
def exampleCairo : Cairo where
  region_op := fun _ b dst other =>
    match dst, other with
    | some d, some o =>
      fun h => if h = d then { b d with rects := (b d).rects ++ (b o).rects } else b h
    | _, _ => b
  rectangle_op := fun _ b dst rect =>
    match dst with
    | some d => fun h => if h = d then { b d with rects := (b d).rects ++ [rect] } else b h
    | none => b
  region_status := fun b r =>
    match r with
    | some h => (b h).status
    | none => 7

/-- A stand-in library in which every combine runs out of memory: the destination
ends in status 1 (CAIRO_STATUS_NO_MEMORY). -/
def exhaustedCairo : Cairo where
  region_op := fun _ b dst _ =>
    match dst with
    | some d => fun h => if h = d then { status := 1, rects := [] } else b h
    | none => b
  rectangle_op := fun _ b dst _ =>
    match dst with
    | some d => fun h => if h = d then { status := 1, rects := [] } else b h
    | none => b
  region_status := fun b r =>
    match r with
    | some h => (b h).status
    | none => 7

/-! ## Theorems: the console adapter -/

theorem toStringOutcome_saved (E : Engine) (w : World) (v : JSValue) :
    toStringOutcome E (AutoSaveExceptionState w).2 v = toStringOutcome E w v := by
  cases v <;> rfl

/-- A conversion that succeeds between saving and restoring the exception state
yields the string and leaves the state as it was. -/
theorem JS_ToString_ok (E : Engine) (w : World) (v : JSValue) (j : JSString)
    (h : toStringOutcome E w v = .ok j) :
    (JS_ToString E (AutoSaveExceptionState w).2 v).1 = some j ∧
    AutoSaveExceptionState_restore (JS_ToString E (AutoSaveExceptionState w).2 v).2
      (AutoSaveExceptionState w).1 = w := by
  simp only [JS_ToString, toStringOutcome_saved, h]
  exact ⟨trivial, rfl⟩

/-- A conversion that throws between saving and restoring the exception state
yields null and leaves the state as it was: the exception is dropped. -/
theorem JS_ToString_error (E : Engine) (w : World) (v : JSValue) (e : JSError)
    (h : toStringOutcome E w v = .error e) :
    (JS_ToString E (AutoSaveExceptionState w).2 v).1 = none ∧
    AutoSaveExceptionState_restore (JS_ToString E (AutoSaveExceptionState w).2 v).2
      (AutoSaveExceptionState w).1 = w := by
  simp only [JS_ToString, toStringOutcome_saved, h]
  exact ⟨trivial, rfl⟩

theorem JS_EncodeStringToUTF8_ok (E : Engine) (w : World) (j : JSString) (s : String)
    (h : encodeOutcome E j = some s) : JS_EncodeStringToUTF8 E w j = (some s, w) := by
  simp [JS_EncodeStringToUTF8, h]

theorem JS_EncodeStringToUTF8_none (E : Engine) (w : World) (j : JSString)
    (h : encodeOutcome E j = none) :
    JS_EncodeStringToUTF8 E w j = (none, { w with pending := some .outOfMemory }) := by
  simp [JS_EncodeStringToUTF8, h]

theorem argumentText_some (E : Engine) (w : World) (v : JSValue) (s : String)
    (h : argumentText E w v = some s) :
    ∃ j, toStringOutcome E w v = .ok j ∧ encodeOutcome E j = some s := by
  unfold argumentText at h
  cases hv : toStringOutcome E w v with
  | error e => simp [hv] at h
  | ok j => exact ⟨j, rfl, by simpa [hv] using h⟩

theorem intercalate_go_append (sep a b : String) (l : List String) :
    String.intercalate.go (a ++ b) sep l = a ++ String.intercalate.go b sep l := by
  induction l generalizing b with
  | nil => simp [String.intercalate.go]
  | cons x xs ih =>
    simp only [String.intercalate.go]
    rw [← ih]
    simp [String.append_assoc]

theorem intercalate_cons_cons (sep x y : String) (l : List String) :
    sep.intercalate (x :: y :: l) = x ++ sep ++ sep.intercalate (y :: l) := by
  simp only [String.intercalate, String.intercalate.go]
  rw [← intercalate_go_append]

/-- The loop of `gjs_print_parse_args` on arguments that all stringify and encode:
the buffer is what was built before followed by the texts joined by spaces. -/
theorem parse_loop_all_ok (E : Engine) (len : Nat) (w : World) :
    ∀ (rest : List JSValue) (strs : List String) (n : Nat) (str : String),
      rest.map (argumentText E w) = strs.map some → n + rest.length = len →
      gjs_print_parse_args_loop E len rest n str w
        = { ok := true, buffer := some (str ++ " ".intercalate strs), world := w } := by
  intro rest
  induction rest with
  | nil =>
    intro strs n str h _
    cases strs with
    | nil => simp [gjs_print_parse_args_loop, g_string_free, String.intercalate]
    | cons a l => simp at h
  | cons v rest ih =>
    intro strs n str h hn
    cases strs with
    | nil => simp at h
    | cons s strs =>
      simp only [List.map_cons, List.cons.injEq] at h
      obtain ⟨j, hj, hs⟩ := argumentText_some E w v s h.1
      simp only [gjs_print_parse_args_loop, (JS_ToString_ok E w v j hj).1,
        (JS_ToString_ok E w v j hj).2, JS_EncodeStringToUTF8_ok E w j s hs]
      cases rest with
      | nil =>
        have hl : strs = [] := by
          have := h.2
          cases strs with
          | nil => rfl
          | cons a l => simp at this
        subst hl
        have hn1 : ¬ n < len - 1 := by simp at hn; omega
        simp [hn1, gjs_print_parse_args_loop, g_string_free, String.intercalate,
          String.intercalate.go]
      | cons v2 rest2 =>
        cases strs with
        | nil => simp at h
        | cons s2 strs2 =>
          have hn1 : n < len - 1 := by simp at hn; omega
          rw [if_pos hn1]
          rw [ih (s2 :: strs2) (n + 1) (str ++ s ++ " ") h.2 (by simp at hn ⊢; omega)]
          rw [intercalate_cons_cons]
          simp [String.append_assoc]

/-- The loop of `gjs_print_parse_args` when the first argument whose
stringification fails comes after arguments that stringify and encode: what was
built is freed and the buffer is the placeholder alone. -/
theorem parse_loop_first_failure (E : Engine) (len : Nat) (w : World) (v : JSValue)
    (post : List JSValue) (e : JSError) (hv : toStringOutcome E w v = .error e) :
    ∀ (pre : List JSValue) (strs : List String) (n : Nat) (str : String),
      pre.map (argumentText E w) = strs.map some →
      gjs_print_parse_args_loop E len (pre ++ v :: post) n str w
        = { ok := true, buffer := some "<invalid string>", world := w } := by
  intro pre
  induction pre with
  | nil =>
    intro strs n str _
    simp only [List.nil_append, gjs_print_parse_args_loop, (JS_ToString_error E w v e hv).1,
      (JS_ToString_error E w v e hv).2]
    simp [g_string_free]
  | cons a pre ih =>
    intro strs n str h
    cases strs with
    | nil => simp at h
    | cons s strs =>
      simp only [List.map_cons, List.cons.injEq] at h
      obtain ⟨j, hj, hs⟩ := argumentText_some E w a s h.1
      simp only [List.cons_append, gjs_print_parse_args_loop, (JS_ToString_ok E w a j hj).1,
        (JS_ToString_ok E w a j hj).2, JS_EncodeStringToUTF8_ok E w j s hs]
      exact ih strs _ _ h.2

theorem c_str_of_no_nul (j : String) (h : Char.ofNat 0 ∉ j.data) : c_str j = j := by
  have ht : j.data.takeWhile (fun c => c != Char.ofNat 0) = j.data := by
    rw [List.takeWhile_eq_self_iff]
    intro c hc
    have hne : c ≠ Char.ofNat 0 := fun e => h (e ▸ hc)
    simpa using hne
  unfold c_str
  rw [ht]

theorem map_c_str_of_no_nul (jstrs : List JSString)
    (h : ∀ j, j ∈ jstrs → Char.ofNat 0 ∉ j.data) : jstrs.map c_str = jstrs := by
  induction jstrs with
  | nil => rfl
  | cons j l ih =>
    simp only [List.map_cons]
    rw [c_str_of_no_nul j (h j (List.mem_cons_self _ _)),
      ih (fun k hk => h k (List.mem_cons_of_mem _ hk))]

/-- Arguments that stringify to strings the engine can encode contribute those
strings as C strings. -/
theorem argumentText_of_strings (E : Engine) (w : World) :
    ∀ (l : List JSValue) (jstrs : List JSString),
      l.map (toStringOutcome E w) = jstrs.map Except.ok →
      (∀ j, j ∈ jstrs → E.encodeFails j = false) →
      l.map (argumentText E w) = (jstrs.map c_str).map some := by
  intro l
  induction l with
  | nil =>
    intro jstrs h _
    cases jstrs with
    | nil => rfl
    | cons a t => simp at h
  | cons v l ih =>
    intro jstrs h henc
    cases jstrs with
    | nil => simp at h
    | cons j t =>
      simp only [List.map_cons, List.cons.injEq] at h
      simp only [List.map_cons, List.cons.injEq]
      refine ⟨?_, ih t h.2 (fun k hk => henc k (List.mem_cons_of_mem _ hk))⟩
      simp [argumentText, h.1, encodeOutcome, henc j (List.mem_cons_self _ _)]

/-- Counterexample to C1 as stated: in `print("a\u0000b", "c")` both arguments
stringify and encode, and the line written is "a c" and a newline: the first
string is cut at its NUL character, so the line is not the two strings joined by
a space. -/
theorem print_cuts_argument_at_nul :
    toStringOutcome exampleEngine exampleWorld (.string nulString) = .ok nulString ∧
    exampleEngine.encodeFails nulString = false ∧
    (gjs_print exampleEngine exampleWorld
        { thisv := .undefined, args := [.string nulString, .string "c"],
          slot := .object 0 }).ok = true ∧
    (gjs_print exampleEngine exampleWorld
        { thisv := .undefined, args := [.string nulString, .string "c"],
          slot := .object 0 }).world.stdout = "a c\n" ∧
    (gjs_print exampleEngine exampleWorld
        { thisv := .undefined, args := [.string nulString, .string "c"],
          slot := .object 0 }).world.stdout ≠ " ".intercalate [nulString, "c"] ++ "\n" := by
  refine ⟨rfl, rfl, ?_, ?_, ?_⟩ <;> decide

/-- Claim C1, amended.  For every argument list in which each argument
stringifies and encodes successfully (the empty list included), `print` and
`printerr` succeed with result undefined and write the arguments' strings, each
taken up to its first NUL character, joined by single spaces and followed by one
newline, `print` to standard output and `printerr` to standard error; nothing
else changes.  A string without a NUL character is written whole. -/
theorem print_writes_joined_line (E : Engine) (w : World) (argv : CallArgs)
    (jstrs : List JSString)
    (hstr : argv.args.map (toStringOutcome E w) = jstrs.map Except.ok)
    (henc : ∀ j, j ∈ jstrs → E.encodeFails j = false) :
    gjs_print E w argv
        = { ok := true, rval := .undefined,
            world := { w with
              stdout := w.stdout ++ " ".intercalate (jstrs.map c_str) ++ "\n" } } ∧
    gjs_printerr E w argv
        = { ok := true, rval := .undefined,
            world := { w with
              stderr := w.stderr ++ " ".intercalate (jstrs.map c_str) ++ "\n" } } ∧
    ((∀ j, j ∈ jstrs → Char.ofNat 0 ∉ j.data) → jstrs.map c_str = jstrs) := by
  have h := argumentText_of_strings E w argv.args jstrs hstr henc
  have hp := parse_loop_all_ok E argv.args.length w argv.args (jstrs.map c_str) 0 "" h
    (by simp)
  refine ⟨?_, ?_, map_c_str_of_no_nul jstrs⟩
  · simp [gjs_print, gjs_print_parse_args, hp, g_print, percent_s]
  · simp [gjs_printerr, gjs_print_parse_args, hp, g_printerr, percent_s]

/-- Witness of the amended C1: `print("a", "b")` writes "a b" and a newline,
`print()` writes a newline, `printerr("a", "b")` writes the same line to standard
error, and `print("a\u0000b", "c")` writes "a c" and a newline. -/
theorem print_writes_joined_line_witness :
    (gjs_print exampleEngine exampleWorld
        { thisv := .undefined, args := [.string "a", .string "b"], slot := .object 0 }).world.stdout
      = "a b\n" ∧
    (gjs_print exampleEngine exampleWorld
        { thisv := .undefined, args := [], slot := .object 0 }).world.stdout = "\n" ∧
    (gjs_printerr exampleEngine exampleWorld
        { thisv := .undefined, args := [.string "a", .string "b"], slot := .object 0 }).world.stderr
      = "a b\n" ∧
    (gjs_print exampleEngine exampleWorld
        { thisv := .undefined, args := [.string nulString, .string "c"],
          slot := .object 0 }).world.stdout = "a c\n" := by
  refine ⟨?_, ?_, ?_, ?_⟩
  · rw [(print_writes_joined_line exampleEngine exampleWorld
      { thisv := .undefined, args := [.string "a", .string "b"], slot := .object 0 }
      ["a", "b"] rfl (fun _ _ => rfl)).1]
    decide
  · rw [(print_writes_joined_line exampleEngine exampleWorld
      { thisv := .undefined, args := [], slot := .object 0 } [] rfl (fun _ _ => rfl)).1]
    decide
  · rw [(print_writes_joined_line exampleEngine exampleWorld
      { thisv := .undefined, args := [.string "a", .string "b"], slot := .object 0 }
      ["a", "b"] rfl (fun _ _ => rfl)).2.1]
    decide
  · rw [(print_writes_joined_line exampleEngine exampleWorld
      { thisv := .undefined, args := [.string nulString, .string "c"], slot := .object 0 }
      [nulString, "c"] rfl (fun _ _ => rfl)).1]
    decide

/-- Counterexample to C7 as stated: in `print("a", Symbol())` the second argument
is the first whose stringification fails, and the line written is the placeholder
alone, not "a " followed by the placeholder. -/
theorem print_failure_drops_earlier_output :
    (gjs_print exampleEngine exampleWorld
        { thisv := .undefined, args := [.string "a", .symbol "s"], slot := .object 0 }).ok = true ∧
    (gjs_print exampleEngine exampleWorld
        { thisv := .undefined, args := [.string "a", .symbol "s"], slot := .object 0 }).world.stdout
      = "<invalid string>\n" ∧
    (gjs_print exampleEngine exampleWorld
        { thisv := .undefined, args := [.string "a", .symbol "s"], slot := .object 0 }).world.stdout
      ≠ "a <invalid string>\n" := by
  decide

/-- Claim C7, amended.  For every argument list `pre ++ v :: post` in which `v` is
the first argument whose stringification fails and the arguments before it
stringify and encode, `print` and `printerr` succeed with result undefined and
the line written is the placeholder "<invalid string>" followed by the newline:
the output built from the earlier arguments is discarded and nothing of the
later arguments is written. -/
theorem print_first_failure_writes_placeholder (E : Engine) (w : World) (argv : CallArgs)
    (pre post : List JSValue) (v : JSValue) (strs : List String) (e : JSError)
    (hargs : argv.args = pre ++ v :: post)
    (hpre : pre.map (argumentText E w) = strs.map some)
    (hv : toStringOutcome E w v = .error e) :
    gjs_print E w argv
        = { ok := true, rval := .undefined,
            world := { w with stdout := w.stdout ++ "<invalid string>" ++ "\n" } } ∧
    gjs_printerr E w argv
        = { ok := true, rval := .undefined,
            world := { w with stderr := w.stderr ++ "<invalid string>" ++ "\n" } } := by
  have hp := parse_loop_first_failure E argv.args.length w v post e hv pre strs 0 "" hpre
  rw [← hargs] at hp
  constructor
  · simp [gjs_print, gjs_print_parse_args, hp, g_print, percent_s]
  · simp [gjs_printerr, gjs_print_parse_args, hp, g_printerr, percent_s]

/-- Witness of the amended C7: `print("a", Symbol(), "c")` writes the placeholder
line and nothing else. -/
theorem print_first_failure_writes_placeholder_witness :
    (gjs_print exampleEngine exampleWorld
        { thisv := .undefined, args := [.string "a", .symbol "s", .string "c"],
          slot := .object 0 }).world.stdout = "<invalid string>\n" := by
  rw [(print_first_failure_writes_placeholder exampleEngine exampleWorld
        { thisv := .undefined, args := [.string "a", .symbol "s", .string "c"],
          slot := .object 0 }
        [.string "a"] [.string "c"] (.symbol "s") ["a"] .typeError rfl (by decide) rfl).1]
  decide

/-- When the engine cannot allocate the UTF-8 buffer, `log("x")`, whose single
argument stringifies, fails and sends nothing. -/
theorem log_encoding_failure_sends_nothing :
    toStringOutcome exhaustedEngine exampleWorld (.string "x") = .ok "x" ∧
    (gjs_log exhaustedEngine exampleWorld
        { thisv := .undefined, args := [.string "x"], slot := .object 0 }).ok = false ∧
    (gjs_log exhaustedEngine exampleWorld
        { thisv := .undefined, args := [.string "x"], slot := .object 0 }).world.sink = [] := by
  refine ⟨rfl, ?_, ?_⟩ <;> decide

/-- Counterexample to C8 as stated: `log("a\u0000b")` has one argument, whose
stringification succeeds, and the one message sent is "JS LOG: a": the string is
cut at its NUL character, so the message is not "JS LOG: " followed by that
string. -/
theorem log_cuts_message_at_nul :
    toStringOutcome exampleEngine exampleWorld (.string nulString) = .ok nulString ∧
    (gjs_log exampleEngine exampleWorld
        { thisv := .undefined, args := [.string nulString], slot := .object 0 }).ok = true ∧
    (gjs_log exampleEngine exampleWorld
        { thisv := .undefined, args := [.string nulString], slot := .object 0 }).world.sink
      = [.text .G_LOG_LEVEL_MESSAGE "JS LOG: a"] ∧
    (gjs_log exampleEngine exampleWorld
        { thisv := .undefined, args := [.string nulString], slot := .object 0 }).world.sink
      ≠ [.text .G_LOG_LEVEL_MESSAGE ("JS LOG: " ++ nulString)] := by
  refine ⟨rfl, ?_, ?_, ?_⟩ <;> decide

/-- Claim C8, amended.  `log` called with a number of arguments other than one
fails with the error "Must pass a single argument to log()" and sends nothing;
called with one argument that stringifies and whose string the engine encodes, it
succeeds with result undefined and sends exactly one message, "JS LOG: " followed
by that string taken up to its first NUL character (the whole string when it has
none); when the engine cannot encode the string the call fails and sends
nothing; called with one argument whose stringification fails, it succeeds, sends
the fixed placeholder message and leaves no error pending that was not pending
before. -/
theorem log_behaviour (E : Engine) (w : World) (argv : CallArgs) :
    (argv.args.length ≠ 1 →
      gjs_log E w argv
        = { ok := false, rval := argv.slot,
            world := { w with
              pending := some (.message "Must pass a single argument to log()") } }) ∧
    (∀ v j, argv.args = [v] → toStringOutcome E w v = .ok j → E.encodeFails j = false →
      gjs_log E w argv
        = { ok := true, rval := .undefined,
            world := { w with
              sink := w.sink ++ [.text .G_LOG_LEVEL_MESSAGE ("JS LOG: " ++ c_str j)] } }) ∧
    (∀ j : JSString, Char.ofNat 0 ∉ j.data → c_str j = j) ∧
    (∀ v j, argv.args = [v] → toStringOutcome E w v = .ok j → E.encodeFails j = true →
      (gjs_log E w argv).ok = false ∧ (gjs_log E w argv).world.sink = w.sink) ∧
    (∀ v e, argv.args = [v] → toStringOutcome E w v = .error e →
      gjs_log E w argv
        = { ok := true, rval := argv.slot,
            world := { w with
              sink := w.sink ++ [.text .G_LOG_LEVEL_MESSAGE
                "JS LOG: <cannot convert value to string>"] } }) := by
  obtain ⟨thisv, args, slot⟩ := argv
  refine ⟨?_, ?_, c_str_of_no_nul, ?_, ?_⟩
  · intro h
    simp only at h
    simp [gjs_log, h, gjs_throw]
  · intro v j hargs hj hs
    simp only at hargs
    subst hargs
    have he : encodeOutcome E j = some (c_str j) := by simp [encodeOutcome, hs]
    simp [gjs_log, (JS_ToString_ok E w v j hj).1, (JS_ToString_ok E w v j hj).2,
      JS_EncodeStringToUTF8_ok E w j (c_str j) he, g_message]
  · intro v j hargs hj hs
    simp only at hargs
    subst hargs
    have he : encodeOutcome E j = none := by simp [encodeOutcome, hs]
    simp [gjs_log, (JS_ToString_ok E w v j hj).1, (JS_ToString_ok E w v j hj).2,
      JS_EncodeStringToUTF8_none E w j he]
  · intro v e hargs he
    simp only at hargs
    subst hargs
    simp [gjs_log, (JS_ToString_error E w v e he).1, (JS_ToString_error E w v e he).2,
      g_message]

/-- Witness of the amended C8: `log(42)` sends the one message "JS LOG: 42",
`log("a\u0000b")` sends "JS LOG: a", `log()` and `log(1, 2)` fail with the
argument-count error, and `log(Symbol())` sends the placeholder. -/
theorem log_behaviour_witness :
    (gjs_log exampleEngine exampleWorld
        { thisv := .undefined, args := [.number (.finite false 42 0)],
          slot := .object 0 }).world.sink
      = [.text .G_LOG_LEVEL_MESSAGE "JS LOG: 42"] ∧
    (gjs_log exampleEngine exampleWorld
        { thisv := .undefined, args := [.string nulString], slot := .object 0 }).world.sink
      = [.text .G_LOG_LEVEL_MESSAGE "JS LOG: a"] ∧
    (gjs_log exampleEngine exampleWorld
        { thisv := .undefined, args := [], slot := .object 0 }).world.pending
      = some (.message "Must pass a single argument to log()") ∧
    (gjs_log exampleEngine exampleWorld
        { thisv := .undefined,
          args := [.number (.finite false 1 0), .number (.finite false 2 0)],
          slot := .object 0 }).ok = false ∧
    (gjs_log exampleEngine exampleWorld
        { thisv := .undefined, args := [.symbol "s"], slot := .object 0 }).world.sink
      = [.text .G_LOG_LEVEL_MESSAGE "JS LOG: <cannot convert value to string>"] := by
  refine ⟨?_, ?_, ?_, ?_, ?_⟩
  · rw [(log_behaviour exampleEngine exampleWorld _).2.1 (.number (.finite false 42 0))
      "42" rfl rfl rfl]
    decide
  · rw [(log_behaviour exampleEngine exampleWorld _).2.1 (.string nulString)
      nulString rfl rfl rfl]
    decide
  · rw [(log_behaviour exampleEngine exampleWorld _).1 (by decide)]
  · rw [(log_behaviour exampleEngine exampleWorld _).1 (by decide)]
  · rw [(log_behaviour exampleEngine exampleWorld _).2.2.2.2 (.symbol "s") .typeError rfl rfl]
    decide

/-- Claim C9 at its failing input: `log(Symbol())` succeeds after emitting the
placeholder, and the return-value slot still holds what it held on entry (here the
callee, object 0), not undefined. -/
theorem log_placeholder_leaves_rval_unset :
    (gjs_log exampleEngine exampleWorld
        { thisv := .undefined, args := [.symbol "s"], slot := .object 0 }).ok = true ∧
    (gjs_log exampleEngine exampleWorld
        { thisv := .undefined, args := [.symbol "s"], slot := .object 0 }).rval = .object 0 ∧
    (gjs_log exampleEngine exampleWorld
        { thisv := .undefined, args := [.symbol "s"], slot := .object 0 }).rval ≠ .undefined := by
  decide

/-- The successful calls that do return undefined: every successful `logError`,
`print` and `printerr`, and every successful `log` whose argument stringifies. -/
theorem successful_calls_returning_undefined (E : Engine) (w : World) (argv : CallArgs) :
    ((gjs_log_error E w argv).ok = true → (gjs_log_error E w argv).rval = .undefined) ∧
    ((gjs_print E w argv).ok = true → (gjs_print E w argv).rval = .undefined) ∧
    ((gjs_printerr E w argv).ok = true → (gjs_printerr E w argv).rval = .undefined) ∧
    (∀ v j, argv.args = [v] → toStringOutcome E w v = .ok j →
      (gjs_log E w argv).ok = true → (gjs_log E w argv).rval = .undefined) := by
  refine ⟨?_, ?_, ?_, ?_⟩
  · unfold gjs_log_error
    split
    · simp
    · split <;> simp
  · simp only [gjs_print]
    split <;> simp
  · simp only [gjs_printerr]
    split <;> simp
  · intro v j hargs hj
    obtain ⟨thisv, args, slot⟩ := argv
    simp only at hargs
    subst hargs
    cases hs : encodeOutcome E j with
    | none =>
      simp [gjs_log, (JS_ToString_ok E w v j hj).1, (JS_ToString_ok E w v j hj).2,
        JS_EncodeStringToUTF8_none E w j hs]
    | some s =>
      simp [gjs_log, (JS_ToString_ok E w v j hj).1, (JS_ToString_ok E w v j hj).2,
        JS_EncodeStringToUTF8_ok E w j s hs]

/-- Claim C10.  `logError` fails exactly when the argument count is neither 1 nor
2 or the first argument is not an object (with no argument the first argument is
not read); a failing call raises the argument error and forwards nothing.
Otherwise it succeeds with result undefined and forwards the first argument once
at warning severity: with the second argument's string when there is a second
argument that stringifies, and with no message when there is no second argument
or its stringification fails. -/
theorem logError_behaviour (E : Engine) (w : World) (argv : CallArgs) :
    ((gjs_log_error E w argv).ok = false ↔
      ((argv.args.length ≠ 1 ∧ argv.args.length ≠ 2) ∨
        ∃ v, argv.args.head? = some v ∧ v.isObject = false)) ∧
    ((gjs_log_error E w argv).ok = false →
      gjs_log_error E w argv
        = { ok := false, rval := argv.slot,
            world := { w with
              pending := some (.message
                "Must pass an exception and optionally a message to logError()") } }) ∧
    (argv.args = [] → (gjs_log_error E w argv).ok = false) ∧
    (∀ exc, argv.args = [exc] → exc.isObject = true →
      gjs_log_error E w argv
        = { ok := true, rval := .undefined,
            world := { w with
              sink := w.sink ++ [.exception .G_LOG_LEVEL_WARNING exc none] } }) ∧
    (∀ exc m j, argv.args = [exc, m] → exc.isObject = true →
      toStringOutcome E w m = .ok j →
      gjs_log_error E w argv
        = { ok := true, rval := .undefined,
            world := { w with
              sink := w.sink ++ [.exception .G_LOG_LEVEL_WARNING exc (some j)] } }) ∧
    (∀ exc m e, argv.args = [exc, m] → exc.isObject = true →
      toStringOutcome E w m = .error e →
      gjs_log_error E w argv
        = { ok := true, rval := .undefined,
            world := { w with
              sink := w.sink ++ [.exception .G_LOG_LEVEL_WARNING exc none] } }) := by
  obtain ⟨thisv, args, slot⟩ := argv
  refine ⟨?_, ?_, ?_, ?_, ?_, ?_⟩
  · match args with
    | [] => simp [gjs_log_error]
    | [a] => cases h : a.isObject <;> simp [gjs_log_error, h]
    | [a, b] => cases h : a.isObject <;> simp [gjs_log_error, h]
    | a :: b :: c :: l => simp [gjs_log_error]
  · match args with
    | [] => simp [gjs_log_error, gjs_throw]
    | [a] => cases h : a.isObject <;> simp [gjs_log_error, h, gjs_throw]
    | [a, b] => cases h : a.isObject <;> simp [gjs_log_error, h, gjs_throw]
    | a :: b :: c :: l => simp [gjs_log_error, gjs_throw]
  · intro h
    simp only at h
    subst h
    simp [gjs_log_error]
  · intro exc h hobj
    simp only at h
    subst h
    simp [gjs_log_error, hobj, gjs_log_exception_full]
  · intro exc m j h hobj hj
    simp only at h
    subst h
    simp [gjs_log_error, hobj, gjs_log_exception_full, (JS_ToString_ok E w m j hj).1,
      (JS_ToString_ok E w m j hj).2]
  · intro exc m e h hobj he
    simp only at h
    subst h
    simp [gjs_log_error, hobj, gjs_log_exception_full, (JS_ToString_error E w m e he).1,
      (JS_ToString_error E w m e he).2]

/-- Witness of C10: `logError(obj, "m")` forwards the object with the message "m",
`logError(obj)` forwards it without a message, and `logError()`, `logError(42)`
forward nothing. -/
theorem logError_behaviour_witness :
    (gjs_log_error exampleEngine exampleWorld
        { thisv := .undefined, args := [.object 3, .string "m"], slot := .object 0 }).world.sink
      = [.exception .G_LOG_LEVEL_WARNING (.object 3) (some "m")] ∧
    (gjs_log_error exampleEngine exampleWorld
        { thisv := .undefined, args := [.object 3], slot := .object 0 }).world.sink
      = [.exception .G_LOG_LEVEL_WARNING (.object 3) none] ∧
    (gjs_log_error exampleEngine exampleWorld
        { thisv := .undefined, args := [], slot := .object 0 }).ok = false ∧
    (gjs_log_error exampleEngine exampleWorld
        { thisv := .undefined, args := [.number (.finite false 42 0)],
          slot := .object 0 }).world.sink = [] := by
  refine ⟨?_, ?_, ?_, ?_⟩
  · rw [(logError_behaviour exampleEngine exampleWorld _).2.2.2.2.1 (.object 3) (.string "m")
      "m" rfl rfl rfl]
    rfl
  · rw [(logError_behaviour exampleEngine exampleWorld _).2.2.2.1 (.object 3) rfl rfl]
    rfl
  · exact (logError_behaviour exampleEngine exampleWorld _).2.2.1 rfl
  · rw [(logError_behaviour exampleEngine exampleWorld
        { thisv := .undefined, args := [.number (.finite false 42 0)], slot := .object 0 }).2.1
      ((logError_behaviour exampleEngine exampleWorld
        { thisv := .undefined, args := [.number (.finite false 42 0)], slot := .object 0 }).1.2
        (Or.inr ⟨.number (.finite false 42 0), rfl, rfl⟩))]
    rfl

/-! ## Theorems: the region methods -/

theorem gjs_parse_call_args_o_object (w : World) (name : String) (argv : CallArgs)
    (o : ObjRef) (h : argv.args = [.object o]) :
    gjs_parse_call_args_o w name argv = (some o, w) := by
  simp [gjs_parse_call_args_o, h]

/-- The region methods reject every argument list that is not a single object:
the call fails with an argument error before any native call. -/
theorem region_func_rejects_non_objects (method : Method) (E : Engine) (C : Cairo)
    (w : World) (argv : CallArgs) (obj : ObjRef) (hthis : computeThis E argv = some obj)
    (hargs : ∀ o, argv.args ≠ [.object o]) :
    REGION_DEFINE_REGION_FUNC method E C w argv
      = { ok := false, rval := argv.slot,
          world := { w with pending := some (.badArguments method.name) } } := by
  have hp : gjs_parse_call_args_o w method.name argv
      = (none, { w with pending := some (.badArguments method.name) }) := by
    unfold gjs_parse_call_args_o
    split
    · next o h => exact absurd h (hargs o)
    · rfl
  simp [REGION_DEFINE_REGION_FUNC, PRELUDE, GJS_GET_THIS, hthis, hp]

/-- Claim C2 at its failing input.  In `region.union(obj)` (and `subtract`,
`intersect`, `xor`) with `obj` the plain object `{}`, the argument passes the
parser, `get_region` yields null, and the native combine primitive is invoked on
`this` with a null operand; the call does not fail with an argument error. -/
theorem region_func_plain_object_reaches_native :
    get_region exampleWorld 3 = none ∧
    (REGION_DEFINE_REGION_FUNC .union exampleEngine exampleCairo exampleWorld
        plainObjectCall).world.calls = [.region .union (some 0) none] ∧
    (REGION_DEFINE_REGION_FUNC .union exampleEngine exampleCairo exampleWorld
        plainObjectCall).world.pending = none ∧
    (REGION_DEFINE_REGION_FUNC .union exampleEngine exampleCairo exampleWorld
        plainObjectCall).ok = true ∧
    (REGION_DEFINE_REGION_FUNC .subtract exampleEngine exampleCairo exampleWorld
        plainObjectCall).world.calls = [.region .subtract (some 0) none] ∧
    (REGION_DEFINE_REGION_FUNC .intersect exampleEngine exampleCairo exampleWorld
        plainObjectCall).world.calls = [.region .intersect (some 0) none] ∧
    (REGION_DEFINE_REGION_FUNC .xor exampleEngine exampleCairo exampleWorld
        plainObjectCall).world.calls = [.region .xor (some 0) none] := by
  decide

theorem RETURN_STATUS_props (C : Cairo) (w : World) (this_region : Option Handle) :
    (RETURN_STATUS C w this_region .undefined).world.calls = w.calls ∧
    (RETURN_STATUS C w this_region .undefined).world.body = w.body ∧
    (RETURN_STATUS C w this_region .undefined).rval = .undefined ∧
    ((RETURN_STATUS C w this_region .undefined).ok = true ↔
      C.region_status w.body this_region = CAIRO_STATUS_SUCCESS) ∧
    (C.region_status w.body this_region ≠ CAIRO_STATUS_SUCCESS →
      (RETURN_STATUS C w this_region .undefined).world.pending
        = some (.cairoStatus "region" (C.region_status w.body this_region))) ∧
    (C.region_status w.body this_region = CAIRO_STATUS_SUCCESS →
      (RETURN_STATUS C w this_region .undefined).world = w) := by
  unfold RETURN_STATUS gjs_cairo_check_status cairo_region_status
  by_cases h : C.region_status w.body this_region = CAIRO_STATUS_SUCCESS
  · simp [h]
  · simp [h]

theorem JS_GetPropertyById_cases (w : World) (obj : ObjRef) (id : String) :
    (∃ v, JS_GetPropertyById w obj id = (some v, w)) ∨
    JS_GetPropertyById w obj id = (none, { w with pending := some .scriptException }) := by
  unfold JS_GetPropertyById
  cases (w.objects obj).props.lookup id with
  | none => exact Or.inl ⟨_, rfl⟩
  | some slot =>
    cases slot with
    | data v => exact Or.inl ⟨_, rfl⟩
    | throwingGetter => exact Or.inr rfl

theorem JS_ToInt32_cases (E : Engine) (w : World) (v : JSValue) :
    (∃ i, JS_ToInt32 E w v = (some i, w)) ∨
    (∃ e, JS_ToInt32 E w v = (none, { w with pending := some e })) := by
  unfold JS_ToInt32
  cases toInt32Outcome E w v with
  | ok i => exact Or.inl ⟨_, rfl⟩
  | error e => exact Or.inr ⟨_, rfl⟩

theorem fieldInt32_some (E : Engine) (w : World) (obj : ObjRef) (id : String) (i : Int)
    (h : fieldInt32 E w obj id = some i) :
    ∃ v, JS_GetPropertyById w obj id = (some v, w) ∧ JS_ToInt32 E w v = (some i, w) := by
  unfold fieldInt32 at h
  rcases JS_GetPropertyById_cases w obj id with ⟨v, hv⟩ | hv
  · refine ⟨v, hv, ?_⟩
    rcases JS_ToInt32_cases E w v with ⟨k, hk⟩ | ⟨e, he⟩
    · simp only [hv, hk, Option.some.injEq] at h
      rw [hk, h]
    · simp [hv, he] at h
  · simp [hv] at h

theorem fieldInt32_none (E : Engine) (w : World) (obj : ObjRef) (id : String)
    (h : fieldInt32 E w obj id = none) :
    (∃ e, JS_GetPropertyById w obj id = (none, { w with pending := some e })) ∨
    (∃ v e, JS_GetPropertyById w obj id = (some v, w) ∧
      JS_ToInt32 E w v = (none, { w with pending := some e })) := by
  unfold fieldInt32 at h
  rcases JS_GetPropertyById_cases w obj id with ⟨v, hv⟩ | hv
  · right
    rcases JS_ToInt32_cases E w v with ⟨k, hk⟩ | ⟨e, he⟩
    · simp [hv, hk] at h
    · exact ⟨v, e, hv, he⟩
  · exact Or.inl ⟨_, hv⟩

/-- When the four reads and coercions succeed, `fill_rectangle` yields the four
coerced values and leaves the state alone. -/
theorem fill_rectangle_ok (E : Engine) (w : World) (obj : ObjRef) (x y wd ht : Int)
    (hx : fieldInt32 E w obj "x" = some x) (hy : fieldInt32 E w obj "y" = some y)
    (hw : fieldInt32 E w obj "width" = some wd) (hh : fieldInt32 E w obj "height" = some ht) :
    fill_rectangle E w obj = (some { x := x, y := y, width := wd, height := ht }, w) := by
  obtain ⟨v1, g1, c1⟩ := fieldInt32_some E w obj "x" x hx
  obtain ⟨v2, g2, c2⟩ := fieldInt32_some E w obj "y" y hy
  obtain ⟨v3, g3, c3⟩ := fieldInt32_some E w obj "width" wd hw
  obtain ⟨v4, g4, c4⟩ := fieldInt32_some E w obj "height" ht hh
  simp only [fill_rectangle, g1, c1, g2, c2, g3, c3, g4, c4]

/-- When a read or a coercion throws, `fill_rectangle` fails with that error
pending and changes nothing else. -/
theorem fill_rectangle_fails (E : Engine) (w : World) (obj : ObjRef)
    (h : fieldInt32 E w obj "x" = none ∨ fieldInt32 E w obj "y" = none ∨
      fieldInt32 E w obj "width" = none ∨ fieldInt32 E w obj "height" = none) :
    ∃ e, fill_rectangle E w obj = (none, { w with pending := some e }) := by
  cases hx : fieldInt32 E w obj "x" with
  | none =>
    rcases fieldInt32_none E w obj "x" hx with ⟨e, g⟩ | ⟨v, e, g, c⟩
    · exact ⟨e, by simp only [fill_rectangle, g]⟩
    · exact ⟨e, by simp only [fill_rectangle, g, c]⟩
  | some x =>
    obtain ⟨v1, g1, c1⟩ := fieldInt32_some E w obj "x" x hx
    cases hy : fieldInt32 E w obj "y" with
    | none =>
      rcases fieldInt32_none E w obj "y" hy with ⟨e, g⟩ | ⟨v, e, g, c⟩
      · exact ⟨e, by simp only [fill_rectangle, g1, c1, g]⟩
      · exact ⟨e, by simp only [fill_rectangle, g1, c1, g, c]⟩
    | some y =>
      obtain ⟨v2, g2, c2⟩ := fieldInt32_some E w obj "y" y hy
      cases hw : fieldInt32 E w obj "width" with
      | none =>
        rcases fieldInt32_none E w obj "width" hw with ⟨e, g⟩ | ⟨v, e, g, c⟩
        · exact ⟨e, by simp only [fill_rectangle, g1, c1, g2, c2, g]⟩
        · exact ⟨e, by simp only [fill_rectangle, g1, c1, g2, c2, g, c]⟩
      | some wd =>
        obtain ⟨v3, g3, c3⟩ := fieldInt32_some E w obj "width" wd hw
        cases hh : fieldInt32 E w obj "height" with
        | none =>
          rcases fieldInt32_none E w obj "height" hh with ⟨e, g⟩ | ⟨v, e, g, c⟩
          · exact ⟨e, by simp only [fill_rectangle, g1, c1, g2, c2, g3, c3, g]⟩
          · exact ⟨e, by simp only [fill_rectangle, g1, c1, g2, c2, g3, c3, g, c]⟩
        | some ht =>
          simp [hx, hy, hw, hh] at h

theorem fill_rectangle_some_world (E : Engine) (w w1 : World) (obj : ObjRef)
    (rect : cairo_rectangle_int_t) (h : fill_rectangle E w obj = (some rect, w1)) :
    w1 = w ∧ fieldInt32 E w obj "x" = some rect.x ∧ fieldInt32 E w obj "y" = some rect.y ∧
      fieldInt32 E w obj "width" = some rect.width ∧
      fieldInt32 E w obj "height" = some rect.height := by
  cases hx : fieldInt32 E w obj "x" with
  | none =>
    obtain ⟨e, he⟩ := fill_rectangle_fails E w obj (Or.inl hx)
    rw [he] at h
    simp at h
  | some x =>
  cases hy : fieldInt32 E w obj "y" with
  | none =>
    obtain ⟨e, he⟩ := fill_rectangle_fails E w obj (Or.inr (Or.inl hy))
    rw [he] at h
    simp at h
  | some y =>
  cases hw : fieldInt32 E w obj "width" with
  | none =>
    obtain ⟨e, he⟩ := fill_rectangle_fails E w obj (Or.inr (Or.inr (Or.inl hw)))
    rw [he] at h
    simp at h
  | some wd =>
  cases hh : fieldInt32 E w obj "height" with
  | none =>
    obtain ⟨e, he⟩ := fill_rectangle_fails E w obj (Or.inr (Or.inr (Or.inr hh)))
    rw [he] at h
    simp at h
  | some ht =>
    rw [fill_rectangle_ok E w obj x y wd ht hx hy hw hh] at h
    simp only [Prod.mk.injEq, Option.some.injEq] at h
    obtain ⟨hr, hw1⟩ := h
    subst hr
    exact ⟨hw1.symm, rfl, rfl, rfl, rfl⟩

/-- Claim C3.  For each of the eight mutating operations, once `this` is computed
and the arguments are parsed (for the rectangle forms: the descriptor is read),
the native combine primitive is invoked exactly once, the regions are what that
call left and stay so, the result slot is undefined, and the call succeeds if and
only if the status of `this` read after the combine is success; on any other
status the call fails with an error naming "region" and that status. -/
theorem mutating_ops_report_status (method : Method) (E : Engine) (C : Cairo) (w : World)
    (argv : CallArgs) (obj o : ObjRef) (hthis : computeThis E argv = some obj)
    (hargs : argv.args = [.object o]) :
    ((REGION_DEFINE_REGION_FUNC method E C w argv).world.calls
        = w.calls ++ [.region method (JS_GetInstancePrivate w obj .cairo_region)
            (get_region w o)] ∧
      (REGION_DEFINE_REGION_FUNC method E C w argv).world.body
        = C.region_op method w.body (JS_GetInstancePrivate w obj .cairo_region)
            (get_region w o) ∧
      (REGION_DEFINE_REGION_FUNC method E C w argv).rval = .undefined ∧
      ((REGION_DEFINE_REGION_FUNC method E C w argv).ok = true ↔
        C.region_status (REGION_DEFINE_REGION_FUNC method E C w argv).world.body
          (JS_GetInstancePrivate w obj .cairo_region) = CAIRO_STATUS_SUCCESS) ∧
      (C.region_status (REGION_DEFINE_REGION_FUNC method E C w argv).world.body
          (JS_GetInstancePrivate w obj .cairo_region) ≠ CAIRO_STATUS_SUCCESS →
        (REGION_DEFINE_REGION_FUNC method E C w argv).world.pending
          = some (.cairoStatus "region"
              (C.region_status (REGION_DEFINE_REGION_FUNC method E C w argv).world.body
                (JS_GetInstancePrivate w obj .cairo_region))))) ∧
    (∀ rect w1, fill_rectangle E w o = (some rect, w1) →
      (REGION_DEFINE_RECT_FUNC method E C w argv).world.calls
        = w.calls ++ [.rectangle method (JS_GetInstancePrivate w obj .cairo_region) rect] ∧
      (REGION_DEFINE_RECT_FUNC method E C w argv).world.body
        = C.rectangle_op method w.body (JS_GetInstancePrivate w obj .cairo_region) rect ∧
      (REGION_DEFINE_RECT_FUNC method E C w argv).rval = .undefined ∧
      ((REGION_DEFINE_RECT_FUNC method E C w argv).ok = true ↔
        C.region_status (REGION_DEFINE_RECT_FUNC method E C w argv).world.body
          (JS_GetInstancePrivate w obj .cairo_region) = CAIRO_STATUS_SUCCESS) ∧
      (C.region_status (REGION_DEFINE_RECT_FUNC method E C w argv).world.body
          (JS_GetInstancePrivate w obj .cairo_region) ≠ CAIRO_STATUS_SUCCESS →
        (REGION_DEFINE_RECT_FUNC method E C w argv).world.pending
          = some (.cairoStatus "region"
              (C.region_status (REGION_DEFINE_RECT_FUNC method E C w argv).world.body
                (JS_GetInstancePrivate w obj .cairo_region))))) := by
  have hp := gjs_parse_call_args_o_object w method.name argv o hargs
  constructor
  · have hr : REGION_DEFINE_REGION_FUNC method E C w argv
        = RETURN_STATUS C (cairo_region_combine C method w
            (JS_GetInstancePrivate w obj .cairo_region) (get_region w o))
            (JS_GetInstancePrivate w obj .cairo_region) .undefined := by
      simp [REGION_DEFINE_REGION_FUNC, PRELUDE, GJS_GET_THIS, hthis, hp]
    obtain ⟨h1, h2, h3, h4, h5, _⟩ := RETURN_STATUS_props C (cairo_region_combine C method w
      (JS_GetInstancePrivate w obj .cairo_region) (get_region w o))
      (JS_GetInstancePrivate w obj .cairo_region)
    rw [hr, h1, h2, h3]
    exact ⟨rfl, rfl, rfl, h4, h5⟩
  · intro rect w1 hf
    obtain ⟨hw1, _⟩ := fill_rectangle_some_world E w w1 o rect hf
    rw [hw1] at hf
    have hr : REGION_DEFINE_RECT_FUNC method E C w argv
        = RETURN_STATUS C (cairo_region_combine_rectangle C method w
            (JS_GetInstancePrivate w obj .cairo_region) rect)
            (JS_GetInstancePrivate w obj .cairo_region) .undefined := by
      simp [REGION_DEFINE_RECT_FUNC, PRELUDE, GJS_GET_THIS, hthis, hp, hf]
    obtain ⟨h1, h2, h3, h4, h5, _⟩ := RETURN_STATUS_props C
      (cairo_region_combine_rectangle C method w
        (JS_GetInstancePrivate w obj .cairo_region) rect)
      (JS_GetInstancePrivate w obj .cairo_region)
    rw [hr, h1, h2, h3]
    exact ⟨rfl, rfl, rfl, h4, h5⟩

/-- Witness of C3: in a library whose combine runs out of memory `a.union(b)`
invokes the primitive once and fails with the error naming "region" and status 1;
in the example library `a.union(b)` and `a.unionRectangle(d)` succeed. -/
theorem mutating_ops_report_status_witness :
    (REGION_DEFINE_REGION_FUNC .union exampleEngine exhaustedCairo exampleWorld
        { thisv := .object 1, args := [.object 2], slot := .object 0 }).world.calls
      = [.region .union (some 0) (some 1)] ∧
    (REGION_DEFINE_REGION_FUNC .union exampleEngine exhaustedCairo exampleWorld
        { thisv := .object 1, args := [.object 2], slot := .object 0 }).world.pending
      = some (.cairoStatus "region" 1) ∧
    (REGION_DEFINE_REGION_FUNC .union exampleEngine exampleCairo exampleWorld
        { thisv := .object 1, args := [.object 2], slot := .object 0 }).ok = true ∧
    (REGION_DEFINE_RECT_FUNC .union exampleEngine exampleCairo exampleWorld
        { thisv := .object 1, args := [.object 4], slot := .object 0 }).ok = true := by
  refine ⟨?_, ?_, ?_, ?_⟩
  · rw [(mutating_ops_report_status .union exampleEngine exhaustedCairo exampleWorld
      { thisv := .object 1, args := [.object 2], slot := .object 0 } 1 2 rfl rfl).1.1]
    decide
  · rw [(mutating_ops_report_status .union exampleEngine exhaustedCairo exampleWorld
      { thisv := .object 1, args := [.object 2], slot := .object 0 } 1 2 rfl rfl).1.2.2.2.2
      (by decide)]
    decide
  · exact (mutating_ops_report_status .union exampleEngine exampleCairo exampleWorld
      { thisv := .object 1, args := [.object 2], slot := .object 0 } 1 2 rfl rfl).1.2.2.2.1.2
      (by decide)
  · exact ((mutating_ops_report_status .union exampleEngine exampleCairo exampleWorld
      { thisv := .object 1, args := [.object 4], slot := .object 0 } 1 4 rfl rfl).2
      { x := 1, y := 2, width := 3, height := 4 } exampleWorld rfl).2.2.2.1.2 (by decide)

theorem JSDouble_toInt32_range (d : JSDouble) :
    -2147483648 ≤ d.toInt32 ∧ d.toInt32 < 2147483648 := by
  cases d with
  | nan => simp [JSDouble.toInt32]
  | inf neg => simp [JSDouble.toInt32]
  | finite neg mant exp =>
    simp only [JSDouble.toInt32]
    split <;> omega

theorem toInt32Outcome_range (E : Engine) (w : World) (v : JSValue) (i : Int)
    (h : toInt32Outcome E w v = .ok i) : -2147483648 ≤ i ∧ i < 2147483648 := by
  cases v with
  | undefined =>
    simp only [toInt32Outcome, Except.ok.injEq] at h
    subst h
    exact JSDouble_toInt32_range _
  | null =>
    simp only [toInt32Outcome, Except.ok.injEq] at h
    omega
  | boolean b =>
    simp only [toInt32Outcome, Except.ok.injEq] at h
    cases b <;> simp at h <;> omega
  | number d =>
    simp only [toInt32Outcome, Except.ok.injEq] at h
    subst h
    exact JSDouble_toInt32_range _
  | string s =>
    simp only [toInt32Outcome, Except.ok.injEq] at h
    subst h
    exact JSDouble_toInt32_range _
  | symbol d => simp [toInt32Outcome] at h
  | bigint n => simp [toInt32Outcome] at h
  | object o =>
    simp only [toInt32Outcome] at h
    cases hn : (w.objects o).toNum with
    | none => simp [hn] at h
    | some d =>
      simp only [hn, Except.ok.injEq] at h
      subst h
      exact JSDouble_toInt32_range _

theorem fieldInt32_range (E : Engine) (w : World) (obj : ObjRef) (id : String) (i : Int)
    (h : fieldInt32 E w obj id = some i) : -2147483648 ≤ i ∧ i < 2147483648 := by
  obtain ⟨v, _, hc⟩ := fieldInt32_some E w obj id i h
  unfold JS_ToInt32 at hc
  cases ho : toInt32Outcome E w v with
  | error e => simp [ho] at hc
  | ok k =>
    simp only [ho, Prod.mk.injEq, Option.some.injEq, and_true] at hc
    subst hc
    exact toInt32Outcome_range E w v k ho

theorem fieldInt32_missing (E : Engine) (w : World) (obj : ObjRef) (id : String)
    (h : (w.objects obj).props.lookup id = none) : fieldInt32 E w obj id = some 0 := by
  simp [fieldInt32, JS_GetPropertyById, h, JS_ToInt32, toInt32Outcome, JSDouble.toInt32]

theorem fieldInt32_data (E : Engine) (w : World) (obj : ObjRef) (id : String) (v : JSValue)
    (h : (w.objects obj).props.lookup id = some (.data v)) :
    fieldInt32 E w obj id = (JS_ToInt32 E w v).1 := by
  simp [fieldInt32, JS_GetPropertyById, h]

/-- Counterexample to C4 as stated: in `region.unionRectangle(obj)` (and the other
three rectangle forms) with `obj` the plain object `{}`, in which all four fields
are missing, the call succeeds and the native primitive is invoked with the
rectangle (0, 0, 0, 0). -/
theorem rect_func_accepts_empty_descriptor :
    (exampleWorld.objects 3).props = [] ∧
    (REGION_DEFINE_RECT_FUNC .union exampleEngine exampleCairo exampleWorld
        plainObjectCall).ok = true ∧
    (REGION_DEFINE_RECT_FUNC .union exampleEngine exampleCairo exampleWorld
        plainObjectCall).world.calls
      = [.rectangle .union (some 0) { x := 0, y := 0, width := 0, height := 0 }] ∧
    (REGION_DEFINE_RECT_FUNC .subtract exampleEngine exampleCairo exampleWorld
        plainObjectCall).world.calls
      = [.rectangle .subtract (some 0) { x := 0, y := 0, width := 0, height := 0 }] ∧
    (REGION_DEFINE_RECT_FUNC .intersect exampleEngine exampleCairo exampleWorld
        plainObjectCall).world.calls
      = [.rectangle .intersect (some 0) { x := 0, y := 0, width := 0, height := 0 }] ∧
    (REGION_DEFINE_RECT_FUNC .xor exampleEngine exampleCairo exampleWorld
        plainObjectCall).world.calls
      = [.rectangle .xor (some 0) { x := 0, y := 0, width := 0, height := 0 }] := by
  decide

/-- Claim C4, amended.  For each of the four rectangle operations and every
descriptor object: when reading `x`, `y`, `width`, `height` and coercing each with
ToInt32 all succeed, the native primitive is invoked once and receives the four
coercions, each a signed 32-bit integer, as x, y, width, height; when a read or a
coercion throws, the call fails with the error pending and the native primitive is
not invoked.  A missing field is not an error, it coerces to 0; a field holding a
number coerces to the 32-bit integer of that number, so a descriptor whose four
fields are numbers always reaches the native primitive with their coercions; a
field holding undefined, null, a boolean or a string is coerced too. -/
theorem rect_func_coerces_fields (method : Method) (E : Engine) (C : Cairo) (w : World)
    (argv : CallArgs) (obj o : ObjRef) (hthis : computeThis E argv = some obj)
    (hargs : argv.args = [.object o]) :
    (∀ x y wd ht, fieldInt32 E w o "x" = some x → fieldInt32 E w o "y" = some y →
      fieldInt32 E w o "width" = some wd → fieldInt32 E w o "height" = some ht →
      (REGION_DEFINE_RECT_FUNC method E C w argv).world.calls
        = w.calls ++ [.rectangle method (JS_GetInstancePrivate w obj .cairo_region)
            { x := x, y := y, width := wd, height := ht }] ∧
      (-2147483648 ≤ x ∧ x < 2147483648) ∧ (-2147483648 ≤ y ∧ y < 2147483648) ∧
      (-2147483648 ≤ wd ∧ wd < 2147483648) ∧ (-2147483648 ≤ ht ∧ ht < 2147483648)) ∧
    ((fieldInt32 E w o "x" = none ∨ fieldInt32 E w o "y" = none ∨
        fieldInt32 E w o "width" = none ∨ fieldInt32 E w o "height" = none) →
      (REGION_DEFINE_RECT_FUNC method E C w argv).ok = false ∧
      (REGION_DEFINE_RECT_FUNC method E C w argv).world.pending.isSome = true ∧
      (REGION_DEFINE_RECT_FUNC method E C w argv).world.calls = w.calls ∧
      (REGION_DEFINE_RECT_FUNC method E C w argv).world.body = w.body) ∧
    (∀ id, (w.objects o).props.lookup id = none → fieldInt32 E w o id = some 0) ∧
    (∀ id d, (w.objects o).props.lookup id = some (.data (.number d)) →
      fieldInt32 E w o id = some d.toInt32) ∧
    (∀ id, (w.objects o).props.lookup id = some (.data .undefined) →
      fieldInt32 E w o id = some 0) ∧
    (∀ id, (w.objects o).props.lookup id = some (.data .null) →
      fieldInt32 E w o id = some 0) ∧
    (∀ id b, (w.objects o).props.lookup id = some (.data (.boolean b)) →
      fieldInt32 E w o id = some (if b then 1 else 0)) ∧
    (∀ id s, (w.objects o).props.lookup id = some (.data (.string s)) →
      fieldInt32 E w o id = some (E.stringToNumber s).toInt32) ∧
    (∀ id, (w.objects o).props.lookup id = some .throwingGetter →
      fieldInt32 E w o id = none) ∧
    (∀ id d, (w.objects o).props.lookup id = some (.data (.symbol d)) →
      fieldInt32 E w o id = none) := by
  have hp := gjs_parse_call_args_o_object w method.name argv o hargs
  refine ⟨?_, ?_, ?_, ?_, ?_, ?_, ?_, ?_, ?_, ?_⟩
  · intro x y wd ht hx hy hw hh
    have hf := fill_rectangle_ok E w o x y wd ht hx hy hw hh
    refine ⟨?_, fieldInt32_range E w o _ x hx, fieldInt32_range E w o _ y hy,
      fieldInt32_range E w o _ wd hw, fieldInt32_range E w o _ ht hh⟩
    have hr : REGION_DEFINE_RECT_FUNC method E C w argv
        = RETURN_STATUS C (cairo_region_combine_rectangle C method w
            (JS_GetInstancePrivate w obj .cairo_region)
            { x := x, y := y, width := wd, height := ht })
            (JS_GetInstancePrivate w obj .cairo_region) .undefined := by
      simp [REGION_DEFINE_RECT_FUNC, PRELUDE, GJS_GET_THIS, hthis, hp, hf]
    rw [hr, (RETURN_STATUS_props C _ _).1]
    rfl
  · intro h
    obtain ⟨e, he⟩ := fill_rectangle_fails E w o h
    simp [REGION_DEFINE_RECT_FUNC, PRELUDE, GJS_GET_THIS, hthis, hp, he]
  · intro id h
    exact fieldInt32_missing E w o id h
  · intro id d h
    rw [fieldInt32_data E w o id _ h]
    rfl
  · intro id h
    rw [fieldInt32_data E w o id _ h]
    simp [JS_ToInt32, toInt32Outcome, JSDouble.toInt32]
  · intro id h
    rw [fieldInt32_data E w o id _ h]
    rfl
  · intro id b h
    rw [fieldInt32_data E w o id _ h]
    rfl
  · intro id s h
    rw [fieldInt32_data E w o id _ h]
    rfl
  · intro id h
    simp [fieldInt32, JS_GetPropertyById, h]
  · intro id d h
    rw [fieldInt32_data E w o id _ h]
    rfl

/-- Witness of the amended C4: `region.unionRectangle` of the descriptor
`{x: 1, y: 2, width: 3, height: 4}` invokes the native primitive once with the
rectangle (1, 2, 3, 4). -/
theorem rect_func_coerces_fields_witness :
    (REGION_DEFINE_RECT_FUNC .union exampleEngine exampleCairo exampleWorld
        { thisv := .object 1, args := [.object 4], slot := .object 0 }).world.calls
      = [.rectangle .union (some 0) { x := 1, y := 2, width := 3, height := 4 }] := by
  rw [((rect_func_coerces_fields .union exampleEngine exampleCairo exampleWorld
      { thisv := .object 1, args := [.object 4], slot := .object 0 } 1 4 rfl rfl).1
      1 2 3 4 (by decide) (by decide) (by decide) (by decide)).1]
  decide

/-! ## Theorems: the argument-direction conversion -/

/-- The values `region_to_g_argument` handles: null is passed as a null handle
when it is permitted and is refused with the message "<display name> may not be
null", the slot untouched, when it is not; a Region object with a handle passes
that handle, and its reference is released once exactly when the transfer mode is
`GI_TRANSFER_EVERYTHING`. -/
theorem region_to_g_argument_handled_values (E : Engine) (w : World) (arg_name : String)
    (argument_type : Nat) (transfer : GITransfer) (arg : GIArgument) :
    region_to_g_argument E w .null arg_name argument_type transfer true arg
      = some (true, { v_pointer := none }, w) ∧
    region_to_g_argument E w .null arg_name argument_type transfer false arg
      = some (false, arg, { w with pending := some (.message
          (E.gjs_argument_display_name arg_name argument_type ++ " may not be null")) }) ∧
    (∀ obj h may_be_null, get_region w obj = some h →
      region_to_g_argument E w (.object obj) arg_name argument_type transfer may_be_null arg
        = some (true, { v_pointer := some h },
            if transfer = .GI_TRANSFER_EVERYTHING then
              { w with ref_count := Function.update w.ref_count h (w.ref_count h - 1) }
            else w)) := by
  refine ⟨?_, ?_, ?_⟩
  · simp [region_to_g_argument, JSValue.isNull, gjs_arg_unset]
  · simp [region_to_g_argument, JSValue.isNull, gjs_throw]
  · intro obj h may_be_null hg
    simp [region_to_g_argument, JSValue.isNull, JSValue.toObject, hg, gjs_arg_set,
      cairo_region_destroy]

/-- Claim C6 at its failing inputs.  For the number 5, which is neither null nor
an object, the conversion applies `toObject()` to a value that is not an object:
no failure is reported.  For the plain object `{}` it returns false with no error
pending. -/
theorem region_to_g_argument_unguarded_values :
    region_to_g_argument exampleEngine exampleWorld (.number (.finite false 5 0)) "region" 0
        .GI_TRANSFER_NOTHING false { v_pointer := none } = none ∧
    (region_to_g_argument exampleEngine exampleWorld (.object 3) "region" 0
        .GI_TRANSFER_NOTHING false { v_pointer := none }).map
          (fun r => (r.1, r.2.1, r.2.2.pending))
      = some (false, { v_pointer := none }, none) := by
  constructor
  · rfl
  · decide

/-! ## Theorems: reference counts of wrapped regions -/

theorem constructor_spec (w : World) (argv : CallArgs) (hargs : argv.args = []) :
    gjs_cairo_region_constructor false w argv
      = some { ok := true, rval := .object w.nextObj,
               world := { w with
                 objects := Function.update w.objects w.nextObj
                   { freshRegionObject with priv := some w.nextHandle }
                 nextObj := w.nextObj + 1
                 ref_count := Function.update w.ref_count w.nextHandle 1
                 body := Function.update w.body w.nextHandle
                   { status := CAIRO_STATUS_SUCCESS, rects := [] }
                 nextHandle := w.nextHandle + 1 } } := by
  simp [gjs_cairo_region_constructor, GJS_NATIVE_CONSTRUCTOR_PRELUDE, JS_NewRegionObject,
    gjs_parse_call_args_none, hargs,
    cairo_region_create, _gjs_cairo_region_construct_internal, JS_GetPrivate,
    cairo_region_reference, JS_SetPrivate, cairo_region_destroy, freshRegionObject]

theorem from_region_spec (w : World) (h : Handle) :
    gjs_cairo_region_from_region false w (some h)
      = some (some w.nextObj,
          { w with
            objects := Function.update w.objects w.nextObj
              { freshRegionObject with priv := some h }
            nextObj := w.nextObj + 1
            ref_count := Function.update w.ref_count h (w.ref_count h + 1) }) := by
  simp [gjs_cairo_region_from_region, JS_NewRegionObject,
    _gjs_cairo_region_construct_internal, JS_GetPrivate, cairo_region_reference,
    JS_SetPrivate, freshRegionObject]

theorem alloc_failure_spec (w : World) (argv : CallArgs) (h : Handle) :
    gjs_cairo_region_constructor true w argv
      = some { ok := false, rval := argv.slot,
               world := { w with pending := some .outOfMemory } } ∧
    gjs_cairo_region_from_region true w (some h)
      = some (none, { w with pending := some .outOfMemory }) := by
  simp [gjs_cairo_region_constructor, GJS_NATIVE_CONSTRUCTOR_PRELUDE,
    gjs_cairo_region_from_region, JS_NewRegionObject]

theorem finalize_spec (w : World) (o : ObjRef) :
    gjs_cairo_region_finalize w o
      = { w with
          objects := Function.update w.objects o { w.objects o with priv := none }
          ref_count :=
            match (w.objects o).priv with
            | some h => Function.update w.ref_count h (w.ref_count h - 1)
            | none => w.ref_count } := by
  unfold gjs_cairo_region_finalize JS_GetPrivate JS_SetPrivate cairo_region_destroy
  cases (w.objects o).priv <;> rfl

theorem countP_range_succ (p : Nat → Bool) (n : Nat) :
    (List.range (n + 1)).countP p = (List.range n).countP p + (if p n then 1 else 0) := by
  rw [List.range_succ, List.countP_append]
  cases h : p n <;> simp [List.countP_cons, h]

theorem countP_range_congr (p q : Nat → Bool) (n : Nat) (h : ∀ i, i < n → p i = q i) :
    (List.range n).countP p = (List.range n).countP q := by
  apply List.countP_congr
  intro i hi
  rw [h i (List.mem_range.mp hi)]

theorem countP_range_update (p q : Nat → Bool) (o : Nat) :
    ∀ n, o < n → (∀ i, i ≠ o → q i = p i) →
      (List.range n).countP q + (if p o then 1 else 0)
        = (List.range n).countP p + (if q o then 1 else 0) := by
  intro n
  induction n with
  | zero => intro h; omega
  | succ n ih =>
    intro ho hpq
    rw [countP_range_succ, countP_range_succ]
    by_cases hn : o = n
    · subst hn
      rw [countP_range_congr q p o (fun i hi => hpq i (by omega))]
      omega
    · have := ih (by omega) hpq
      rw [hpq n (fun h => hn h.symm)]
      omega

theorem liveWrappers_congr (w w1 : World) (h : Handle) (hobj : w1.objects = w.objects)
    (hn : w1.nextObj = w.nextObj) : liveWrappers w1 h = liveWrappers w h := by
  unfold liveWrappers
  rw [hobj, hn]

theorem liveWrappers_alloc (w w1 : World) (obj : JSObject) (h : Handle)
    (hobj : w1.objects = Function.update w.objects w.nextObj obj)
    (hn : w1.nextObj = w.nextObj + 1) :
    liveWrappers w1 h
      = liveWrappers w h + (if obj.clasp = .cairo_region ∧ obj.priv = some h then 1 else 0) := by
  unfold liveWrappers
  rw [hobj, hn, countP_range_succ]
  congr 1
  · apply countP_range_congr
    intro i hi
    have hne : i ≠ w.nextObj := by omega
    simp [Function.update_noteq hne]
  · simp

theorem liveWrappers_set (w w1 : World) (o : ObjRef) (obj : JSObject) (h : Handle)
    (hobj : w1.objects = Function.update w.objects o obj) (hn : w1.nextObj = w.nextObj)
    (ho : o < w.nextObj) :
    liveWrappers w1 h
        + (if (w.objects o).clasp = .cairo_region ∧ (w.objects o).priv = some h then 1 else 0)
      = liveWrappers w h + (if obj.clasp = .cairo_region ∧ obj.priv = some h then 1 else 0) := by
  unfold liveWrappers
  rw [hobj, hn]
  have := countP_range_update
    (fun i => decide ((w.objects i).clasp = .cairo_region ∧ (w.objects i).priv = some h))
    (fun i => decide ((Function.update w.objects o obj i).clasp = .cairo_region ∧
      (Function.update w.objects o obj i).priv = some h))
    o w.nextObj ho (fun i hi => by simp [Function.update_noteq hi])
  simpa using this

theorem liveWrappers_pos (w : World) (o : ObjRef) (h : Handle) (ho : o < w.nextObj)
    (hc : (w.objects o).clasp = .cairo_region) (hp : (w.objects o).priv = some h) :
    0 < liveWrappers w h := by
  unfold liveWrappers
  rw [List.countP_pos_iff]
  exact ⟨o, List.mem_range.mpr ho, by simp [hc, hp]⟩

theorem step_construct (w : World) :
    ∃ w1, step w (.construct false) = some w1 ∧
      w1.objects = Function.update w.objects w.nextObj
        { freshRegionObject with priv := some w.nextHandle } ∧
      w1.nextObj = w.nextObj + 1 ∧
      w1.ref_count = Function.update w.ref_count w.nextHandle 1 ∧
      w1.nextHandle = w.nextHandle + 1 := by
  simp only [step,
    constructor_spec w { thisv := .undefined, args := [], slot := .undefined } rfl,
    Option.map_some']
  exact ⟨_, rfl, rfl, rfl, rfl, rfl⟩

theorem step_wrap (w : World) (h : Handle) :
    ∃ w1, step w (.wrap false h) = some w1 ∧
      w1.objects = Function.update w.objects w.nextObj
        { freshRegionObject with priv := some h } ∧
      w1.nextObj = w.nextObj + 1 ∧
      w1.ref_count = Function.update w.ref_count h (w.ref_count h + 1) ∧
      w1.nextHandle = w.nextHandle := by
  simp only [step, from_region_spec w h, Option.map_some']
  exact ⟨_, rfl, rfl, rfl, rfl, rfl⟩

theorem step_alloc_failure (w : World) (s : Step)
    (hs : s = .construct true ∨ ∃ h, s = .wrap true h) :
    ∃ w1, step w s = some w1 ∧ w1.objects = w.objects ∧ w1.nextObj = w.nextObj ∧
      w1.ref_count = w.ref_count ∧ w1.nextHandle = w.nextHandle := by
  rcases hs with hs | ⟨h, hs⟩
  · subst hs
    simp only [step,
      (alloc_failure_spec w { thisv := .undefined, args := [], slot := .undefined } 0).1,
      Option.map_some']
    exact ⟨_, rfl, rfl, rfl, rfl, rfl⟩
  · subst hs
    simp only [step,
      (alloc_failure_spec w { thisv := .undefined, args := [], slot := .undefined } h).2,
      Option.map_some']
    exact ⟨_, rfl, rfl, rfl, rfl, rfl⟩

theorem step_finalize (w : World) (o : ObjRef) :
    ∃ w1, step w (.finalize o) = some w1 ∧
      w1.objects = Function.update w.objects o { w.objects o with priv := none } ∧
      w1.nextObj = w.nextObj ∧
      w1.ref_count = (match (w.objects o).priv with
        | some h => Function.update w.ref_count h (w.ref_count h - 1)
        | none => w.ref_count) ∧
      w1.nextHandle = w.nextHandle := by
  simp only [step, finalize_spec]
  exact ⟨_, rfl, rfl, rfl, rfl, rfl⟩

theorem invariant_unchanged (ext : Handle → Nat) (w w1 : World)
    (hinv : CountInvariant ext w) (hobj : w1.objects = w.objects)
    (hn : w1.nextObj = w.nextObj) (hrc : w1.ref_count = w.ref_count)
    (hnh : w1.nextHandle = w.nextHandle) : CountInvariant ext w1 := by
  obtain ⟨hcount, hfresh⟩ := hinv
  constructor
  · intro h
    rw [liveWrappers_congr w w1 h hobj hn, hrc]
    exact hcount h
  · intro h hle
    rw [hrc]
    exact hfresh h (hnh ▸ hle)

/-- A new wrapper on a handle together with one more reference on it keeps the
invariant. -/
theorem invariant_new_wrapper (ext : Handle → Nat) (w w1 : World) (hd : Handle)
    (obj : JSObject) (hinv : CountInvariant ext w)
    (hobj : w1.objects = Function.update w.objects w.nextObj obj)
    (hn : w1.nextObj = w.nextObj + 1)
    (hcl : obj.clasp = .cairo_region) (hpr : obj.priv = some hd)
    (hrc : w1.ref_count = Function.update w.ref_count hd (w.ref_count hd + 1))
    (hnh : w.nextHandle ≤ w1.nextHandle) (hlt : hd < w1.nextHandle) :
    CountInvariant ext w1 := by
  obtain ⟨hcount, hfresh⟩ := hinv
  constructor
  · intro h
    rw [liveWrappers_alloc w w1 obj h hobj hn, hrc, hcl, hpr]
    have hc := hcount h
    by_cases hh : h = hd
    · subst hh
      simp only [Function.update_same, true_and, if_true]
      omega
    · have hh2 : ¬ hd = h := fun e => hh e.symm
      simp only [Function.update_noteq hh, true_and, Option.some.injEq, hh2, if_false]
      omega
  · intro h hle
    have hh : h ≠ hd := Nat.ne_of_gt (Nat.lt_of_lt_of_le hlt hle)
    rw [hrc, Function.update_noteq hh]
    exact hfresh h (Nat.le_trans hnh hle)

/-- Clearing the private slot of a wrapper together with one reference less on the
handle it held keeps the invariant. -/
theorem invariant_cleared_wrapper (ext : Handle → Nat) (w w1 : World) (o : ObjRef)
    (hinv : CountInvariant ext w) (ho : o < w.nextObj)
    (hc : (w.objects o).clasp = .cairo_region)
    (hobj : w1.objects = Function.update w.objects o { w.objects o with priv := none })
    (hn : w1.nextObj = w.nextObj)
    (hrc : w1.ref_count = (match (w.objects o).priv with
        | some h => Function.update w.ref_count h (w.ref_count h - 1)
        | none => w.ref_count))
    (hnh : w1.nextHandle = w.nextHandle) : CountInvariant ext w1 := by
  obtain ⟨hcount, hfresh⟩ := hinv
  cases hp : (w.objects o).priv with
  | none =>
    rw [hp] at hrc
    constructor
    · intro h
      have hs := liveWrappers_set w w1 o { w.objects o with priv := none } h hobj hn ho
      simp only [hp, reduceCtorEq, and_false, if_false, add_zero] at hs
      rw [hs, hrc]
      exact hcount h
    · intro h hle
      rw [hrc]
      exact hfresh h (hnh ▸ hle)
  | some h0 =>
    rw [hp] at hrc
    constructor
    · intro h
      have hs := liveWrappers_set w w1 o { w.objects o with priv := none } h hobj hn ho
      simp only [hp, hc, reduceCtorEq, and_false, if_false, add_zero, true_and,
        Option.some.injEq] at hs
      have hc2 := hcount h
      rw [hrc]
      by_cases hh : h = h0
      · subst hh
        have hpos := liveWrappers_pos w o h ho hc hp
        simp only [if_true] at hs
        simp only [Function.update_same]
        omega
      · have hh2 : ¬ h0 = h := fun e => hh e.symm
        simp only [hh2, if_false, add_zero] at hs
        simp only [Function.update_noteq hh]
        omega
    · intro h hle
      rw [hrc]
      have := hfresh h (hnh ▸ hle)
      by_cases hh : h = h0
      · subst hh
        simp only [Function.update_same]
        omega
      · simp only [Function.update_noteq hh]
        exact this

/-- A step that is enabled runs and preserves the reference-count invariant. -/
theorem step_preserves (ext : Handle → Nat) (w : World) (s : Step)
    (hinv : CountInvariant ext w) (hen : s.enabled w = true) :
    ∃ w1, step w s = some w1 ∧ CountInvariant ext w1 := by
  cases s with
  | construct allocFails =>
    cases allocFails with
    | true =>
      obtain ⟨w1, hs, h1, h2, h3, h4⟩ := step_alloc_failure w (.construct true) (Or.inl rfl)
      exact ⟨w1, hs, invariant_unchanged ext w w1 hinv h1 h2 h3 h4⟩
    | false =>
      obtain ⟨w1, hs, h1, h2, h3, h4⟩ := step_construct w
      refine ⟨w1, hs, invariant_new_wrapper ext w w1 w.nextHandle _ hinv h1 h2 rfl rfl ?_
        (by rw [h4]; exact Nat.le_succ _) (by rw [h4]; exact Nat.lt_succ_self _)⟩
      rw [h3, hinv.2 w.nextHandle (le_refl _)]
  | wrap allocFails h0 =>
    simp only [Step.enabled, decide_eq_true_eq] at hen
    cases allocFails with
    | true =>
      obtain ⟨w1, hs, h1, h2, h3, h4⟩ := step_alloc_failure w (.wrap true h0) (Or.inr ⟨h0, rfl⟩)
      exact ⟨w1, hs, invariant_unchanged ext w w1 hinv h1 h2 h3 h4⟩
    | false =>
      obtain ⟨w1, hs, h1, h2, h3, h4⟩ := step_wrap w h0
      exact ⟨w1, hs, invariant_new_wrapper ext w w1 h0 _ hinv h1 h2 rfl rfl h3
        (by rw [h4]) (by rw [h4]; exact hen)⟩
  | finalize o =>
    simp only [Step.enabled, Bool.and_eq_true, decide_eq_true_eq] at hen
    obtain ⟨ho, hc⟩ := hen
    obtain ⟨w1, hs, h1, h2, h3, h4⟩ := step_finalize w o
    exact ⟨w1, hs, invariant_cleared_wrapper ext w w1 o hinv ho hc h1 h2 h3 h4⟩

/-- An admissible sequence of steps runs to the end and preserves the
reference-count invariant. -/
theorem run_preserves (ext : Handle → Nat) :
    ∀ (steps : List Step) (w : World), CountInvariant ext w → admissible w steps = true →
      ∃ w1, run w steps = some w1 ∧ CountInvariant ext w1 := by
  intro steps
  induction steps with
  | nil => intro w hinv _; exact ⟨w, rfl, hinv⟩
  | cons s rest ih =>
    intro w hinv hadm
    simp only [admissible, Bool.and_eq_true] at hadm
    obtain ⟨hen, hrest⟩ := hadm
    obtain ⟨w1, hs, hinv1⟩ := step_preserves ext w s hinv hen
    rw [hs] at hrest
    obtain ⟨w2, hr, hinv2⟩ := ih w1 hinv1 hrest
    exact ⟨w2, by simp [run, hs, hr], hinv2⟩

/-- Two wrappers made of one handle and then finalized leave its count where it
was. -/
theorem wrap_twice_finalize_both (w : World) (h : Handle) :
    ∃ w2 w4, run w [.wrap false h, .wrap false h] = some w2 ∧
      w2.ref_count h = w.ref_count h + 2 ∧
      JS_GetPrivate w2 w.nextObj = some h ∧ JS_GetPrivate w2 (w.nextObj + 1) = some h ∧
      run w2 [.finalize w.nextObj, .finalize (w.nextObj + 1)] = some w4 ∧
      w4.ref_count h = w.ref_count h ∧
      JS_GetPrivate w4 w.nextObj = none ∧ JS_GetPrivate w4 (w.nextObj + 1) = none := by
  obtain ⟨w1, hs1, o1, n1, r1, _⟩ := step_wrap w h
  obtain ⟨w2, hs2, o2, n2, r2, _⟩ := step_wrap w1 h
  obtain ⟨w3, hs3, o3, n3, r3, _⟩ := step_finalize w2 w.nextObj
  obtain ⟨w4, hs4, o4, n4, r4, _⟩ := step_finalize w3 (w.nextObj + 1)
  have hne : w.nextObj ≠ w.nextObj + 1 := Nat.ne_of_lt (Nat.lt_succ_self _)
  have p2a : (w2.objects w.nextObj).priv = some h := by
    rw [o2, n1, Function.update_noteq hne, o1, Function.update_same]
  have p2b : (w2.objects (w.nextObj + 1)).priv = some h := by
    rw [o2, n1, Function.update_same]
  have p3b : (w3.objects (w.nextObj + 1)).priv = some h := by
    rw [o3, Function.update_noteq hne.symm, p2b]
  have c2 : w2.ref_count h = w.ref_count h + 2 := by
    rw [r2, Function.update_same, r1, Function.update_same]
  have c3 : w3.ref_count h = w.ref_count h + 1 := by
    rw [r3, p2a]
    simp only [Function.update_same, c2]
    rfl
  have c4 : w4.ref_count h = w.ref_count h := by
    rw [r4, p3b]
    simp only [Function.update_same, c3]
    rfl
  refine ⟨w2, w4, by simp [run, hs1, hs2], c2, p2a, p2b, by simp [run, hs3, hs4], c4,
    ?_, ?_⟩
  · unfold JS_GetPrivate
    rw [o4, Function.update_noteq hne, o3, Function.update_same]
  · unfold JS_GetPrivate
    rw [o4, Function.update_same]

/-- Claim C5.  With a native region modelled as a handle with a reference count:
`new Region()` yields a wrapper that holds a fresh handle whose count is exactly 1;
wrapping an existing handle raises its count by exactly 1 and touches no other
count; finalizing a wrapper lowers the count of its handle by exactly 1, touches no
other count and clears the association.  Hence after every admissible sequence of
construct, wrap and finalize steps each handle's count is its external references
plus the number of live wrappers on it, and wrapping one handle twice and
finalizing both wrappers returns its count to the initial value. -/
theorem region_reference_counts (ext : Handle → Nat) (w : World) (steps : List Step)
    (hinv : CountInvariant ext w) (hadm : admissible w steps = true) :
    (∀ argv : CallArgs, argv.args = [] →
      ∃ r, gjs_cairo_region_constructor false w argv = some r ∧ r.ok = true ∧
        r.rval = .object w.nextObj ∧ r.world.ref_count w.nextHandle = 1 ∧
        JS_GetPrivate r.world w.nextObj = some w.nextHandle ∧
        liveWrappers r.world w.nextHandle = 1) ∧
    (∀ h, ∃ w1, gjs_cairo_region_from_region false w (some h) = some (some w.nextObj, w1) ∧
        w1.ref_count h = w.ref_count h + 1 ∧ JS_GetPrivate w1 w.nextObj = some h ∧
        ∀ k, k ≠ h → w1.ref_count k = w.ref_count k) ∧
    (∀ o h, o < w.nextObj → (w.objects o).clasp = .cairo_region → JS_GetPrivate w o = some h →
      (gjs_cairo_region_finalize w o).ref_count h + 1 = w.ref_count h ∧
      JS_GetPrivate (gjs_cairo_region_finalize w o) o = none ∧
      ∀ k, k ≠ h → (gjs_cairo_region_finalize w o).ref_count k = w.ref_count k) ∧
    (∃ w1, run w steps = some w1 ∧
      ∀ h, w1.ref_count h = ext h + liveWrappers w1 h) ∧
    (∀ h, ∃ w2 w4, run w [.wrap false h, .wrap false h] = some w2 ∧
      w2.ref_count h = w.ref_count h + 2 ∧
      run w2 [.finalize w.nextObj, .finalize (w.nextObj + 1)] = some w4 ∧
      w4.ref_count h = w.ref_count h) := by
  refine ⟨?_, ?_, ?_, ?_, ?_⟩
  · intro argv hargs
    refine ⟨_, constructor_spec w argv hargs, rfl, rfl, ?_, ?_, ?_⟩
    · simp only [Function.update_same]
    · simp only [JS_GetPrivate, Function.update_same]
    · rw [liveWrappers_alloc w _ { freshRegionObject with priv := some w.nextHandle }
        w.nextHandle rfl rfl]
      have h0 := hinv.1 w.nextHandle
      rw [hinv.2 w.nextHandle (le_refl _)] at h0
      simp only [freshRegionObject, and_self, if_true]
      omega
  · intro h
    refine ⟨_, from_region_spec w h, ?_, ?_, ?_⟩
    · simp only [Function.update_same]
    · simp only [JS_GetPrivate, Function.update_same]
    · intro k hk
      simp only [Function.update_noteq hk]
  · intro o h ho hc hp
    unfold JS_GetPrivate at hp
    have hpos := liveWrappers_pos w o h ho hc hp
    have hcount := hinv.1 h
    rw [finalize_spec, hp]
    refine ⟨?_, ?_, ?_⟩
    · simp only [Function.update_same]
      omega
    · simp only [JS_GetPrivate, Function.update_same]
    · intro k hk
      simp only [Function.update_noteq hk]
  · obtain ⟨w1, hr, hinv1⟩ := run_preserves ext steps w hinv hadm
    exact ⟨w1, hr, hinv1.1⟩
  · intro h
    obtain ⟨w2, w4, h1, h2, _, _, h3, h4, _, _⟩ := wrap_twice_finalize_both w h
    exact ⟨w2, w4, h1, h2, h3, h4⟩

theorem exampleWorld_invariant : CountInvariant (fun _ => 0) exampleWorld := by
  constructor
  · intro h
    match h with
    | 0 => decide
    | 1 => decide
    | n + 2 =>
      have hz : liveWrappers exampleWorld (n + 2) = 0 := by
        unfold liveWrappers
        rw [List.countP_eq_zero]
        intro o ho
        have ho6 : o < 6 := List.mem_range.mp ho
        interval_cases o <;> simp [exampleWorld, exampleObjects, emptyObject]
      rw [hz]
      simp [exampleWorld]
  · intro h hle
    have h2 : ¬ h < 2 := Nat.not_lt.mpr hle
    simp [exampleWorld, h2]

/-- Witness of C5: from the example state, constructing a region, wrapping the
native region 0 again and finalizing the new wrapper 7 and the old wrapper 1 is
an admissible sequence; it runs, and afterwards every count is the number of live
wrappers. -/
theorem region_reference_counts_witness :
    admissible exampleWorld [.construct false, .wrap false 0, .finalize 7, .finalize 1] = true ∧
    ∃ w1, run exampleWorld [.construct false, .wrap false 0, .finalize 7, .finalize 1]
        = some w1 ∧
      ∀ h, w1.ref_count h = (fun _ => 0) h + liveWrappers w1 h :=
  ⟨by decide,
   (region_reference_counts (fun _ => 0) exampleWorld
      [.construct false, .wrap false 0, .finalize 7, .finalize 1]
      exampleWorld_invariant (by decide)).2.2.2.1⟩

end Gjs
